import Mathlib

/-!
# Verification of `stats.go` (package `stats`)

A shallow embedding of the request-metrics recorder of `stats.go`.

* Go's `int`, `int64` and `time.Duration` are 64-bit two's-complement integers
  (`int` as on amd64/arm64).  They are embedded as `Int` with an explicit
  `wrapInt` after every arithmetic operation that can leave the 64-bit range.
* A Go map is a reference to a mutable object.  The embedding keeps a heap of map
  objects; the fields `ResponseCounts` and `TotalResponseCounts` of `Stats` and the
  fields `StatusCodeCount` and `TotalStatusCodeCount` of `Data` hold references
  (heap addresses).  A reference that is not allocated plays the role of `nil`.
* `time.Now()` is an explicit argument `now` of the operations that read the clock.
* The mutex makes every method body atomic, so a run of the recorder, the
  background goroutine of `New` included, is a sequence of method calls.
* A run-time panic is the result `none`.
-/

namespace stats

/-! ## Machine integers -/

/-- Two's-complement wrap-around of a 64-bit signed integer (`int`, `int64`). -/
def wrapInt (x : Int) : Int := (x + 9223372036854775808) % 18446744073709551616 - 9223372036854775808

/-- Smallest `int64`. -/
def minInt64 : Int := -9223372036854775808

/-- Largest `int64`. -/
def maxInt64 : Int := 9223372036854775807

/-! ## Package `time` of the Go standard library -/

/-! A `time.Duration` is a count of nanoseconds held in an `int64`; it is embedded as an
`Int`, like the other machine integers.  `Add`, `Sub`, `Equal`, `Before` and `Unix` follow
`src/time/time.go` of the Go distribution: `addSec` saturates the seconds and `Sub`
saturates its result at `minDuration` and `maxDuration`. -/

/-- Go `time.minDuration`. -/
def minDuration : Int := -9223372036854775808

/-- Go `time.maxDuration`. -/
def maxDuration : Int := 9223372036854775807

/-- Go `time.Second`, in nanoseconds. -/
def Second : Int := 1000000000

/-- Go `time.Millisecond`, in nanoseconds. -/
def Millisecond : Int := 1000000

/-- Seconds from January 1, year 1 to January 1, 1885 (`wallToInternal`). -/
def wallToInternal : Int := 59453308800

/-- Seconds from January 1, year 1 to January 1, 1970 (`unixToInternal`). -/
def unixToInternal : Int := 62135596800

/-- Go `time.Time`, read through its accessors: `sec` is `t.sec()`, the wall-clock
seconds since January 1, year 1; `nsec` is `t.nsec()`; `mono` is the monotonic
clock reading `t.ext` when the `hasMonotonic` bit is set, and `none` otherwise. -/
structure Time where
  sec : Int
  nsec : Int
  mono : Option Int
deriving DecidableEq, Repr

/-- The zero value `time.Time{}`. -/
def Time.zero : Time := ⟨0, 0, none⟩

/-- The representation invariant of a `time.Time`. -/
def Time.Valid (t : Time) : Prop :=
  minInt64 ≤ t.sec ∧ t.sec ≤ maxInt64 ∧ 0 ≤ t.nsec ∧ t.nsec < 1000000000 ∧
  ∀ m ∈ t.mono, minInt64 ≤ m ∧ m ≤ maxInt64 ∧
    wallToInternal ≤ t.sec ∧ t.sec ≤ wallToInternal + 8589934591

instance (t : Time) : Decidable t.Valid :=
  inferInstanceAs (Decidable (minInt64 ≤ t.sec ∧ t.sec ≤ maxInt64 ∧ 0 ≤ t.nsec ∧
    t.nsec < 1000000000 ∧ ∀ m ∈ t.mono, minInt64 ≤ m ∧ m ≤ maxInt64 ∧
      wallToInternal ≤ t.sec ∧ t.sec ≤ wallToInternal + 8589934591))

/-- Go `(*Time).stripMono`. -/
def Time.stripMono (t : Time) : Time := { t with mono := none }

/-- Go `(*Time).addSec`: with a monotonic reading the seconds stay in the packed
33-bit field when they fit; otherwise the sum saturates at `±(1<<63 - 1)`. -/
def Time.addSec (t : Time) (d : Int) : Time :=
  let packed := wrapInt ((t.sec - wallToInternal) + d)
  if t.mono.isSome ∧ 0 ≤ packed ∧ packed ≤ 8589934591 then
    { t with sec := wallToInternal + packed }
  else
    let t := t.stripMono
    let sum := wrapInt (t.sec + d)
    if (sum > t.sec) ↔ (d > 0) then { t with sec := sum }
    else if d > 0 then { t with sec := 9223372036854775807 }
    else { t with sec := -9223372036854775807 }

/-- Go `Time.Add`. -/
def Time.Add (t : Time) (d : Int) : Time :=
  let dsec := Int.tdiv d 1000000000
  let nsec := t.nsec + Int.tmod d 1000000000
  let t1 : Time :=
    if nsec ≥ 1000000000 then ({ t with nsec := nsec - 1000000000 }).addSec (wrapInt (dsec + 1))
    else if nsec < 0 then ({ t with nsec := nsec + 1000000000 }).addSec (wrapInt (dsec - 1))
    else ({ t with nsec := nsec }).addSec dsec
  match t1.mono with
  | some m =>
    let te := wrapInt (m + d)
    if (d < 0 ∧ te > m) ∨ (d > 0 ∧ te < m) then t1.stripMono else { t1 with mono := some te }
  | none => t1

/-- Go `Time.Equal`. -/
def Time.Equal (t u : Time) : Bool :=
  match t.mono, u.mono with
  | some a, some b => decide (a = b)
  | _, _ => decide (t.sec = u.sec ∧ t.nsec = u.nsec)

/-- Go `Time.Before`. -/
def Time.Before (t u : Time) : Bool :=
  match t.mono, u.mono with
  | some a, some b => decide (a < b)
  | _, _ => decide (t.sec < u.sec ∨ (t.sec = u.sec ∧ t.nsec < u.nsec))

/-- Go `time.subMono`. -/
def subMono (t u : Int) : Int :=
  let d := wrapInt (t - u)
  if d < 0 ∧ t > u then maxDuration
  else if d > 0 ∧ t < u then minDuration
  else d

/-- Go `Time.Sub`: the difference `t - u`, saturated to the range of a `Duration`. -/
def Time.Sub (t u : Time) : Int :=
  match t.mono, u.mono with
  | some a, some b => subMono a b
  | _, _ =>
    let d := wrapInt (wrapInt (wrapInt (t.sec - u.sec) * Second) + (t.nsec - u.nsec))
    if (u.Add d).Equal t then d
    else if t.Before u then minDuration
    else maxDuration

/-- Go `Time.Unix`. -/
def Time.Unix (t : Time) : Int := wrapInt (t.sec - unixToInternal)

/-! ## `fmt.Sprintf("%d", _)` -/

/-- The decimal digit character of `d`. -/
def digitChar (d : Nat) : Char :=
  match d with
  | 0 => '0' | 1 => '1' | 2 => '2' | 3 => '3' | 4 => '4'
  | 5 => '5' | 6 => '6' | 7 => '7' | 8 => '8' | _ => '9'

/-- The decimal digits of `n`, least significant first (a zero gives one digit);
`fuel` bounds the number of digits. -/
def digitsLE : Nat → Nat → List Char
  | 0, _ => []
  | fuel + 1, n => digitChar (n % 10) :: (if n / 10 = 0 then [] else digitsLE fuel (n / 10))

/-- The decimal digits of `n`, most significant first. -/
def formatNat (n : Nat) : List Char := (digitsLE (n + 1) n).reverse

/-- The string `fmt.Sprintf("%d", status)`: decimal digits, with a leading minus sign for
a negative number. -/
def Sprintf_d (status : Int) : String :=
  if status < 0 then String.mk ('-' :: formatNat status.natAbs)
  else String.mk (formatNat status.natAbs)

/-! ## Go maps of type `map[string]int` -/

/-- The contents of a `map[string]int`: a list of entries, one per key. -/
abbrev GoMap := List (String × Int)

/-- The keys of a map. -/
def mapKeys (m : GoMap) : List String := m.map Prod.fst

/-- Whether `k` is a key of `m`. -/
def mapHasKey (m : GoMap) (k : String) : Bool := decide (k ∈ mapKeys m)

/-- The Go expression `m[k]`: the stored value, or zero when the key is absent. -/
def mapIndex : GoMap → String → Int
  | [], _ => 0
  | (k', v) :: rest, k => if k' = k then v else mapIndex rest k

/-- The Go assignment `m[k] = v`. -/
def mapAssign : GoMap → String → Int → GoMap
  | [], k, v => [(k, v)]
  | (k', v') :: rest, k, v => if k' = k then (k, v) :: rest else (k', v') :: mapAssign rest k v

/-- The Go statement `m[k]++`. -/
def mapIncr (m : GoMap) (k : String) : GoMap := mapAssign m k (wrapInt (mapIndex m k + 1))

/-- The loop `for _, c := range m { count += c }` starting from `count`. -/
def mapSumFrom (count : Int) : GoMap → Int
  | [] => count
  | (_, c) :: rest => mapSumFrom (wrapInt (count + c)) rest

/-- The loop `count := 0; for _, c := range m { count += c }`. -/
def mapSum (m : GoMap) : Int := mapSumFrom 0 m

/-! ## The recorder -/

/-- The struct `Stats` without its mutex; the two maps are references. -/
structure Stats where
  Uptime : Time
  Pid : Int
  ResponseCounts : Nat
  TotalResponseCounts : Nat
  TotalResponseTime : Time
deriving DecidableEq, Repr

/-- A program state: the allocated map objects and the recorder `mw`. -/
structure World where
  heap : List GoMap
  mw : Stats
deriving DecidableEq, Repr

/-- The contents of the map behind reference `r`; a `nil` map reads as empty. -/
def World.deref (w : World) (r : Nat) : GoMap := w.heap.getD r []

/-- The statement `m[k]++` on the map behind reference `r`: a write to a `nil` map panics. -/
def heapIncr (heap : List GoMap) (r : Nat) (k : String) : Option (List GoMap) :=
  if r < heap.length then some (heap.set r (mapIncr (heap.getD r []) k)) else none

/-- Go `New`, at clock reading `now` in process `pid`: two fresh empty maps and the
zero time. -/
def New (now : Time) (pid : Int) : World :=
  { heap := [[], []],
    mw := { Uptime := now, Pid := pid, ResponseCounts := 0, TotalResponseCounts := 1,
            TotalResponseTime := Time.zero } }

/-- Go `(*Stats).ResetResponseCounts`: the field is pointed at a fresh empty map. -/
def Stats.ResetResponseCounts (w : World) : World :=
  { heap := w.heap ++ [[]],
    mw := { w.mw with ResponseCounts := w.heap.length } }

/-- Go `(*Stats).EndWithStatus`, with `now` the value of `time.Now()`. -/
def Stats.EndWithStatus (w : World) (now start : Time) (status : Int) : Option World :=
  let responseTime := now.Sub start
  let statusCode := Sprintf_d status
  match heapIncr w.heap w.mw.ResponseCounts statusCode with
  | none => none
  | some heap1 =>
    match heapIncr heap1 w.mw.TotalResponseCounts statusCode with
    | none => none
    | some heap2 =>
      some { heap := heap2,
             mw := { w.mw with TotalResponseTime := w.mw.TotalResponseTime.Add responseTime } }

/-- The struct `Data`.  The two maps are references; `UpTime`, `TotalResponseTime` and
`AverageResponseTime` hold the `time.Duration` that the Go fields of these names and
their `Sec` companions render as a string and as floating-point seconds; `TimeUnix`
stands for the clock reading that the field `Time` renders as well. -/
structure Data where
  Pid : Int
  UpTime : Int
  TimeUnix : Int
  StatusCodeCount : Nat
  TotalStatusCodeCount : Nat
  Count : Int
  TotalCount : Int
  TotalResponseTime : Int
  AverageResponseTime : Int
deriving DecidableEq, Repr

/-- Go `int64(a) / int64(b)`: truncated division, a panic when the divisor is zero. -/
def divInt64 (a b : Int) : Option Int :=
  if b = 0 then none else some (wrapInt (Int.tdiv a b))

/-- Go `(*Stats).Data`, with `now` the value of `time.Now()`. -/
def Stats.Data (w : World) (now : Time) : Option Data :=
  let uptime := now.Sub w.mw.Uptime
  let count := mapSum (w.deref w.mw.ResponseCounts)
  let totalCount := mapSum (w.deref w.mw.TotalResponseCounts)
  let totalResponseTime := w.mw.TotalResponseTime.Sub Time.zero
  let averageResponseTime : Option Int :=
    if totalCount > 0 then divInt64 totalResponseTime totalCount else some 0
  match averageResponseTime with
  | none => none
  | some avg =>
    some { Pid := w.mw.Pid,
           UpTime := uptime,
           TimeUnix := now.Unix,
           StatusCodeCount := w.mw.ResponseCounts,
           TotalStatusCodeCount := w.mw.TotalResponseCounts,
           Count := count,
           TotalCount := totalCount,
           TotalResponseTime := totalResponseTime,
           AverageResponseTime := avg }

/-- A method call on the recorder. -/
inductive Op where
  | EndWithStatus (now start : Time) (status : Int)
  | ResetResponseCounts
  | Data (now : Time)
deriving DecidableEq, Repr

/-- The state after one call; `Data` does not write to the state. -/
def step (w : World) : Op → Option World
  | .EndWithStatus now start status => Stats.EndWithStatus w now start status
  | .ResetResponseCounts => some (Stats.ResetResponseCounts w)
  | .Data now => (Stats.Data w now).map (fun _ => w)

/-- The state after a sequence of calls. -/
def run (w : World) : List Op → Option World
  | [] => some w
  | op :: ops => (step w op).bind (fun w1 => run w1 ops)

/-! ## Well-formed states, and the quantities the properties are stated with -/

/-- A well-formed state: the two map fields refer to allocated, distinct map objects and
the accumulated time is a valid `time.Time`.  `New` establishes this and every method
keeps it. -/
def World.WF (w : World) : Prop :=
  w.mw.ResponseCounts < w.heap.length ∧ w.mw.TotalResponseCounts < w.heap.length ∧
  w.mw.ResponseCounts ≠ w.mw.TotalResponseCounts ∧ w.mw.TotalResponseTime.Valid

instance (w : World) : Decidable w.WF :=
  inferInstanceAs (Decidable (w.mw.ResponseCounts < w.heap.length ∧
    w.mw.TotalResponseCounts < w.heap.length ∧
    w.mw.ResponseCounts ≠ w.mw.TotalResponseCounts ∧ w.mw.TotalResponseTime.Valid))

/-- The contents of the recorder: the fields of `Stats` with the maps read through
their references. -/
structure View where
  Uptime : Time
  Pid : Int
  ResponseCounts : GoMap
  TotalResponseCounts : GoMap
  TotalResponseTime : Time
deriving DecidableEq, Repr

/-- The contents of the recorder in state `w`. -/
def World.view (w : World) : View :=
  { Uptime := w.mw.Uptime, Pid := w.mw.Pid,
    ResponseCounts := w.deref w.mw.ResponseCounts,
    TotalResponseCounts := w.deref w.mw.TotalResponseCounts,
    TotalResponseTime := w.mw.TotalResponseTime }

/-- The status codes of the `EndWithStatus` calls of a run, in order. -/
def recorded : List Op → List Int
  | [] => []
  | .EndWithStatus _ _ status :: ops => status :: recorded ops
  | .ResetResponseCounts :: ops => recorded ops
  | .Data _ :: ops => recorded ops

/-- The status codes of the `EndWithStatus` calls since the last `ResetResponseCounts`,
where `acc` holds those recorded since the last reset before the run. -/
def recordedSinceReset (acc : List Int) : List Op → List Int
  | [] => acc
  | .EndWithStatus _ _ status :: ops => recordedSinceReset (acc ++ [status]) ops
  | .ResetResponseCounts :: ops => recordedSinceReset [] ops
  | .Data _ :: ops => recordedSinceReset acc ops

/-- The elapsed durations `end.Sub(start)` measured by the `EndWithStatus` calls of a run,
in order. -/
def elapsed : List Op → List Int
  | [] => []
  | .EndWithStatus now start _ :: ops => now.Sub start :: elapsed ops
  | .ResetResponseCounts :: ops => elapsed ops
  | .Data _ :: ops => elapsed ops

/-- Every running total of the durations `ds`, starting from `acc` nanoseconds, is within
the seconds range of a `time.Time` (an `int64` count of seconds). -/
def totalsRepresentable (acc : Int) : List Int → Prop
  | [] => True
  | d :: ds => minInt64 * 1000000000 ≤ acc + d ∧ acc + d < (maxInt64 + 1) * 1000000000 ∧
      totalsRepresentable (acc + d) ds

instance totalsRepresentableDecidable (acc : Int) (ds : List Int) :
    Decidable (totalsRepresentable acc ds) := by
  induction ds generalizing acc with
  | nil => exact isTrue trivial
  | cons d ds ih =>
    exact inferInstanceAs (Decidable (minInt64 * 1000000000 ≤ acc + d ∧
      acc + d < (maxInt64 + 1) * 1000000000 ∧ totalsRepresentable (acc + d) ds))

/-- The effect of one call on the contents of the recorder. -/
def View.step (v : View) : Op → View
  | .EndWithStatus now start status =>
    { v with ResponseCounts := mapIncr v.ResponseCounts (Sprintf_d status),
             TotalResponseCounts := mapIncr v.TotalResponseCounts (Sprintf_d status),
             TotalResponseTime := v.TotalResponseTime.Add (now.Sub start) }
  | .ResetResponseCounts => { v with ResponseCounts := [] }
  | .Data _ => v

/-! ## Auxiliary quantities of the proofs -/

/-- The nanoseconds from the zero time to `t`, as an exact integer. -/
def Time.ns (t : Time) : Int := t.sec * 1000000000 + t.nsec

/-- A value saturated to the range of a `Duration`. -/
def clampDuration (x : Int) : Int :=
  if x < minDuration then minDuration else if x > maxDuration then maxDuration else x

/-- The seconds of a time after adding `q` seconds, as `addSec` saturates them. -/
def satSec (sec q : Int) : Int :=
  if minInt64 ≤ sec + q ∧ sec + q ≤ maxInt64 then sec + q
  else if q > 0 then 9223372036854775807 else -9223372036854775807

/-- The time `t.Add d` before its monotonic reading is updated. -/
def Time.addWall (t : Time) (d : Int) : Time :=
  let dsec := Int.tdiv d 1000000000
  let nsec := t.nsec + Int.tmod d 1000000000
  if nsec ≥ 1000000000 then ({ t with nsec := nsec - 1000000000 }).addSec (wrapInt (dsec + 1))
  else if nsec < 0 then ({ t with nsec := nsec + 1000000000 }).addSec (wrapInt (dsec - 1))
  else ({ t with nsec := nsec }).addSec dsec

/-- The value of a decimal digit character. -/
def digitVal (c : Char) : Nat :=
  if c = '1' then 1 else if c = '2' then 2 else if c = '3' then 3 else if c = '4' then 4
  else if c = '5' then 5 else if c = '6' then 6 else if c = '7' then 7 else if c = '8' then 8
  else if c = '9' then 9 else 0

/-- The number written by digits that come least significant first. -/
def valueLE : List Char → Nat
  | [] => 0
  | c :: cs => digitVal c + 10 * valueLE cs

/-- The keys under which a run records its status codes. -/
def recordedKeys (ops : List Op) : List String := (recorded ops).map Sprintf_d

/-! ## The handler wrappers -/

/-- Modelled from the spec: the recording response writer, whose source file is not among
the sources.  The spec describes it as a "response observer" that "tracks eventual status
code, default 200 if never explicitly set" and "records whatever status code is ultimately
set": it holds the status code it was made with until a status is set, and then the
status set last. -/
structure RecorderResponseWriter where
  status : Int
deriving DecidableEq, Repr

/-- Modelled from the spec: the constructor `NewRecorderResponseWriter(w, statusCode)` of the
recording response writer; the wrapped writer `w` has no part in what is recorded. -/
def NewRecorderResponseWriter (statusCode : Int) : RecorderResponseWriter := ⟨statusCode⟩

/-- Modelled from the spec: the method `WriteHeader(code)` of the recording response writer,
by which a handler sets a status. -/
def RecorderResponseWriter.WriteHeader (r : RecorderResponseWriter) (code : Int) :
    RecorderResponseWriter := { r with status := code }

/-- Modelled from the spec: the method `Status()` of the recording response writer. -/
def RecorderResponseWriter.Status (r : RecorderResponseWriter) : Int := r.status

/-- The run of an `http.Handler` (or of a Negroni `next`) on the request of one invocation:
it is handed the recording response writer, acts on it and returns. -/
abbrev HandlerFunc := RecorderResponseWriter → RecorderResponseWriter

/-- Go `(*Stats).Begin`, with `now` the value of `time.Now()`. -/
def Stats.Begin (now : Time) : Time × RecorderResponseWriter :=
  let start := now
  let writer := NewRecorderResponseWriter 200
  (start, writer)

/-- Go `(*Stats).End`, with `now` the value of `time.Now()` in `EndWithStatus`. -/
def Stats.End (w : World) (now start : Time) (recorder : RecorderResponseWriter) : Option World :=
  Stats.EndWithStatus w now start recorder.Status

/-- The handler that Go `(*Stats).Handler` returns, serving one request: `nowBegin` and
`nowEnd` are the clock readings in `Begin` and in `End`. -/
def Stats.Handler (w : World) (h : HandlerFunc) (nowBegin nowEnd : Time) : Option World :=
  let (beginning, recorder) := Stats.Begin nowBegin
  let recorder := h recorder
  Stats.End w nowEnd beginning recorder

/-- Go `(*Stats).ServeHTTP`, the Negroni interface, serving one request. -/
def Stats.ServeHTTP (w : World) (next : HandlerFunc) (nowBegin nowEnd : Time) : Option World :=
  let (beginning, recorder) := Stats.Begin nowBegin
  let recorder := next recorder
  Stats.End w nowEnd beginning recorder

/-- The exact sum of the values of a map. -/
def mapValuesSum (m : GoMap) : Int := (m.map Prod.snd).sum

/-- The sum of the absolute values of the durations `ds`. -/
def absSum (ds : List Int) : Int := (ds.map (fun d => (d.natAbs : Int))).sum

/-- The time `t` is far enough from both ends of the seconds range of a `time.Time` for the
durations `ds` to be added to it in any order without saturation. -/
def timeBounded (t : Time) (ds : List Int) : Prop :=
  minInt64 * 1000000000 ≤ t.ns - absSum ds ∧ t.ns + absSum ds < (maxInt64 + 1) * 1000000000

instance (t : Time) (ds : List Int) : Decidable (timeBounded t ds) :=
  inferInstanceAs (Decidable (minInt64 * 1000000000 ≤ t.ns - absSum ds ∧
    t.ns + absSum ds < (maxInt64 + 1) * 1000000000))

/-- The time without monotonic reading that is `T` nanoseconds after the zero time, with
the seconds saturated at the largest `int64`. -/
def satTime (T : Int) : Time := ⟨min (T / 1000000000) maxInt64, T % 1000000000, none⟩

/-! ## Facts about machine integers -/

theorem wrapInt_eq_self {x : Int} (h1 : minInt64 ≤ x) (h2 : x ≤ maxInt64) : wrapInt x = x := by
  unfold minInt64 at h1; unfold maxInt64 at h2; unfold wrapInt; omega

theorem wrapInt_ge (x : Int) : minInt64 ≤ wrapInt x := by
  unfold minInt64 wrapInt; omega

theorem wrapInt_le (x : Int) : wrapInt x ≤ maxInt64 := by
  unfold maxInt64 wrapInt; omega

theorem wrapInt_wrapInt_add (a b : Int) : wrapInt (wrapInt a + b) = wrapInt (a + b) := by
  unfold wrapInt; omega

theorem wrapInt_add_wrapInt (a b : Int) : wrapInt (a + wrapInt b) = wrapInt (a + b) := by
  unfold wrapInt; omega

/-- Truncated division and remainder by `10^9`, as a quotient and a remainder that has
the sign of the dividend. -/
theorem tdiv_tmod_billion (d : Int) :
    d = 1000000000 * Int.tdiv d 1000000000 + Int.tmod d 1000000000 ∧
    (0 ≤ d → 0 ≤ Int.tmod d 1000000000 ∧ Int.tmod d 1000000000 < 1000000000) ∧
    (d ≤ 0 → -1000000000 < Int.tmod d 1000000000 ∧ Int.tmod d 1000000000 ≤ 0) := by
  refine ⟨(Int.tdiv_add_tmod d 1000000000).symm, ?_, ?_⟩
  · intro h
    exact ⟨Int.tmod_nonneg _ h, Int.tmod_lt_of_pos _ (by norm_num)⟩
  · intro h
    have h0 : 0 ≤ -d := by omega
    have h1 := Int.tmod_nonneg 1000000000 h0
    have h2 := Int.tmod_lt_of_pos (-d) (show (0:Int) < 1000000000 by norm_num)
    have h3 : Int.tmod (-d) 1000000000 = - Int.tmod d 1000000000 := by
      rw [Int.tmod_def, Int.tmod_def, Int.neg_tdiv]; ring
    omega

/-! ## Facts about `time.Time` -/

theorem addSec_nsec (t : Time) (d : Int) : (t.addSec d).nsec = t.nsec := by
  unfold Time.addSec Time.stripMono
  simp only
  split_ifs <;> rfl

theorem addSec_sec (t : Time) (d : Int) (hv : t.Valid) (hd1 : minInt64 ≤ d) (hd2 : d ≤ maxInt64) :
    (t.addSec d).sec = satSec t.sec d := by
  obtain ⟨h1, h2, -, -, h5⟩ := hv
  unfold minInt64 at h1 hd1; unfold maxInt64 at h2 hd2
  unfold Time.addSec Time.stripMono satSec wrapInt minInt64 maxInt64
  simp only
  cases hm : t.mono with
  | none => simp only [Option.isSome_none, Bool.false_eq_true, false_and, if_false]; split_ifs <;> simp only <;> omega
  | some m =>
    obtain ⟨-, -, h6, h7⟩ := h5 m (by simp [hm])
    unfold wallToInternal at h6 h7 ⊢
    simp only [Option.isSome_some, true_and]
    split_ifs <;> simp only <;> omega

theorem Add_sec (t : Time) (d : Int) : (t.Add d).sec = (t.addWall d).sec := by
  unfold Time.Add
  simp only []
  rw [show (if t.nsec + Int.tmod d 1000000000 ≥ 1000000000 then
        ({ t with nsec := t.nsec + Int.tmod d 1000000000 - 1000000000 } : Time).addSec
          (wrapInt (Int.tdiv d 1000000000 + 1))
      else if t.nsec + Int.tmod d 1000000000 < 0 then
        ({ t with nsec := t.nsec + Int.tmod d 1000000000 + 1000000000 } : Time).addSec
          (wrapInt (Int.tdiv d 1000000000 - 1))
      else ({ t with nsec := t.nsec + Int.tmod d 1000000000 } : Time).addSec
          (Int.tdiv d 1000000000)) = t.addWall d from rfl]
  cases (t.addWall d).mono with
  | none => rfl
  | some m => simp only []; split_ifs <;> rfl

theorem Add_nsec (t : Time) (d : Int) : (t.Add d).nsec = (t.addWall d).nsec := by
  unfold Time.Add
  simp only []
  rw [show (if t.nsec + Int.tmod d 1000000000 ≥ 1000000000 then
        ({ t with nsec := t.nsec + Int.tmod d 1000000000 - 1000000000 } : Time).addSec
          (wrapInt (Int.tdiv d 1000000000 + 1))
      else if t.nsec + Int.tmod d 1000000000 < 0 then
        ({ t with nsec := t.nsec + Int.tmod d 1000000000 + 1000000000 } : Time).addSec
          (wrapInt (Int.tdiv d 1000000000 - 1))
      else ({ t with nsec := t.nsec + Int.tmod d 1000000000 } : Time).addSec
          (Int.tdiv d 1000000000)) = t.addWall d from rfl]
  cases (t.addWall d).mono with
  | none => rfl
  | some m => simp only []; split_ifs <;> rfl

theorem addWall_nsec (t : Time) (d : Int) (hv : t.Valid) :
    (t.addWall d).nsec = (t.nsec + d) % 1000000000 := by
  obtain ⟨-, -, h3, h4, -⟩ := hv
  obtain ⟨e1, e2, e3⟩ := tdiv_tmod_billion d
  unfold Time.addWall
  simp only []
  generalize Int.tdiv d 1000000000 = q at *
  generalize Int.tmod d 1000000000 = r at *
  rcases le_total 0 d with hd | hd
  · have := e2 hd
    split_ifs <;> simp only [addSec_nsec] <;> omega
  · have := e3 hd
    split_ifs <;> simp only [addSec_nsec] <;> omega

theorem addWall_sec (t : Time) (d : Int) (hv : t.Valid)
    (hd1 : minDuration ≤ d) (hd2 : d ≤ maxDuration) :
    (t.addWall d).sec = satSec t.sec ((t.nsec + d) / 1000000000) := by
  have hv0 := hv
  obtain ⟨h1, h2, h3, h4, h5⟩ := hv
  obtain ⟨e1, e2, e3⟩ := tdiv_tmod_billion d
  unfold minDuration at hd1; unfold maxDuration at hd2
  unfold Time.addWall
  simp only []
  generalize Int.tdiv d 1000000000 = q at *
  generalize Int.tmod d 1000000000 = r at *
  have hq : -9223372037 ≤ q ∧ q ≤ 9223372037 := by
    rcases le_total 0 d with hd | hd
    · have := e2 hd; omega
    · have := e3 hd; omega
  have hw1 : wrapInt (q + 1) = q + 1 := wrapInt_eq_self (by unfold minInt64; omega) (by unfold maxInt64; omega)
  have hw2 : wrapInt (q - 1) = q - 1 := wrapInt_eq_self (by unfold minInt64; omega) (by unfold maxInt64; omega)
  have key : ∀ (n' q' : Int), (t.nsec + d) / 1000000000 = q' →
      (({ t with nsec := n' } : Time).addSec q').sec = satSec t.sec ((t.nsec + d) / 1000000000) := by
    intro n' q' hq'
    have hq2 : -9223372038 ≤ q' ∧ q' ≤ 9223372038 := by omega
    have hsec : satSec t.sec q' = satSec ({ t with nsec := n' } : Time).sec q' := rfl
    rw [hq', hsec]
    unfold Time.addSec Time.stripMono satSec wrapInt minInt64 maxInt64
    unfold minInt64 at h1; unfold maxInt64 at h2
    simp only
    cases hm : t.mono with
    | none =>
      simp only [Option.isSome_none, Bool.false_eq_true, false_and, if_false]
      split_ifs <;> simp only <;> omega
    | some m =>
      obtain ⟨-, -, h6, h7⟩ := h5 m (by simp [hm])
      unfold wallToInternal at h6 h7 ⊢
      simp only [Option.isSome_some, true_and]
      split_ifs <;> simp only <;> omega
  rcases le_total 0 d with hd | hd
  · have := e2 hd
    split_ifs
    · rw [hw1]; exact key _ _ (by omega)
    · omega
    · exact key _ _ (by omega)
  · have := e3 hd
    split_ifs
    · omega
    · rw [hw2]; exact key _ _ (by omega)
    · exact key _ _ (by omega)

theorem addSec_mono_none (t : Time) (d : Int) (h : t.mono = none) : (t.addSec d).mono = none := by
  unfold Time.addSec Time.stripMono
  simp only [h, Option.isSome_none, Bool.false_eq_true, false_and, if_false]
  split_ifs <;> rfl

theorem addWall_mono_none (t : Time) (d : Int) (h : t.mono = none) : (t.addWall d).mono = none := by
  unfold Time.addWall
  simp only []
  split_ifs <;> exact addSec_mono_none _ _ h

theorem Add_eq_addWall_of_none (t : Time) (d : Int) (h : t.mono = none) : t.Add d = t.addWall d := by
  have h1 := addWall_mono_none t d h
  unfold Time.addWall at h1
  unfold Time.Add Time.addWall
  simp only [] at h1 ⊢
  rw [h1]

theorem satSec_range (s q : Int) : minInt64 ≤ satSec s q ∧ satSec s q ≤ maxInt64 := by
  unfold satSec minInt64 maxInt64
  split_ifs <;> omega

/-- The wall-clock reading of `t.Add d`: the nanosecond total is split by floor division
and the seconds saturate. -/
theorem Add_wall (t : Time) (d : Int) (hv : t.Valid) (hd1 : minDuration ≤ d) (hd2 : d ≤ maxDuration) :
    (t.Add d).sec = satSec t.sec ((t.nsec + d) / 1000000000) ∧
    (t.Add d).nsec = (t.nsec + d) % 1000000000 := by
  rw [Add_sec, Add_nsec]
  exact ⟨addWall_sec t d hv hd1 hd2, addWall_nsec t d hv⟩

/-- Without saturation of the seconds `Add` adds exactly `d` nanoseconds. -/
theorem Add_ns (t : Time) (d : Int) (hv : t.Valid) (hd1 : minDuration ≤ d) (hd2 : d ≤ maxDuration)
    (h1 : minInt64 * 1000000000 ≤ t.ns + d) (h2 : t.ns + d < (maxInt64 + 1) * 1000000000) :
    (t.Add d).ns = t.ns + d := by
  obtain ⟨e1, e2⟩ := Add_wall t d hv hd1 hd2
  unfold Time.ns at *
  rw [e1, e2]
  unfold satSec
  unfold minInt64 at *; unfold maxInt64 at *
  split_ifs <;> omega

theorem wrapInt_ns (t : Time) :
    wrapInt (wrapInt (wrapInt (t.sec - 0) * Second) + (t.nsec - 0)) = wrapInt t.ns := by
  unfold wrapInt Second Time.ns; omega

/-- The total that `Data` computes, `t.Sub(time.Time{})`, is the nanosecond offset of `t`
saturated to the range of a `Duration`. -/
theorem Sub_zero (t : Time) (hv : t.Valid) : t.Sub Time.zero = clampDuration t.ns := by
  have hz : Time.zero.Valid := by decide
  have hd := wrapInt_ns t
  have hr1 := wrapInt_ge t.ns
  have hr2 := wrapInt_le t.ns
  have hadd := Add_wall Time.zero (wrapInt t.ns) hz hr1 hr2
  have hmono : (Time.zero.Add (wrapInt t.ns)).mono = none := by
    rw [Add_eq_addWall_of_none _ _ rfl]; exact addWall_mono_none _ _ rfl
  obtain ⟨h1, h2, h3, h4, -⟩ := hv
  have hsub : t.Sub Time.zero =
      if (Time.zero.Add (wrapInt t.ns)).sec = t.sec ∧ (Time.zero.Add (wrapInt t.ns)).nsec = t.nsec
      then wrapInt t.ns
      else if t.sec < 0 ∨ (t.sec = 0 ∧ t.nsec < 0) then minDuration else maxDuration := by
    have hzm : Time.zero.mono = none := rfl
    have hz1 : Time.zero.sec = 0 := rfl
    have hz2 : Time.zero.nsec = 0 := rfl
    unfold Time.Sub Time.Equal Time.Before
    simp only [hz1, hz2, hzm, hd, hmono]
    cases t.mono <;> simp
  rw [hsub, hadd.1, hadd.2]
  clear hd hsub hadd hmono
  have hz1 : Time.zero.sec = 0 := rfl
  have hz2 : Time.zero.nsec = 0 := rfl
  rw [hz1, hz2]
  have hW : minInt64 ≤ t.ns → t.ns ≤ maxInt64 → wrapInt t.ns = t.ns := wrapInt_eq_self
  generalize wrapInt t.ns = W at *
  unfold satSec clampDuration minDuration maxDuration
  unfold minInt64 at *; unfold maxInt64 at *
  unfold Time.ns at *
  have hq1 : -9223372036854775808 ≤ 0 + (0 + W) / 1000000000 := by omega
  have hq2 : 0 + (0 + W) / 1000000000 ≤ 9223372036854775807 := by omega
  have hs : (if -9223372036854775808 ≤ 0 + (0 + W) / 1000000000 ∧
      0 + (0 + W) / 1000000000 ≤ 9223372036854775807 then 0 + (0 + W) / 1000000000
      else if (0 + W) / 1000000000 > 0 then 9223372036854775807 else -9223372036854775807)
      = W / 1000000000 := by
    rw [if_pos ⟨hq1, hq2⟩]; omega
  rw [hs]
  have hr : (0 + W) % 1000000000 = W % 1000000000 := by rw [Int.zero_add]
  rw [hr]
  by_cases hlo : t.sec * 1000000000 + t.nsec < -9223372036854775808
  · have c1 : ¬ (W / 1000000000 = t.sec ∧ W % 1000000000 = t.nsec) := by omega
    have c2 : t.sec < 0 ∨ (t.sec = 0 ∧ t.nsec < 0) := by omega
    simp only [if_neg c1, if_pos c2, if_pos hlo]
  · by_cases hhi : t.sec * 1000000000 + t.nsec > 9223372036854775807
    · have c1 : ¬ (W / 1000000000 = t.sec ∧ W % 1000000000 = t.nsec) := by omega
      have c2 : ¬ (t.sec < 0 ∨ (t.sec = 0 ∧ t.nsec < 0)) := by omega
      simp only [if_neg c1, if_neg c2, if_neg hlo, if_pos hhi]
    · have hw := hW (by omega) (by omega)
      have c1 : W / 1000000000 = t.sec ∧ W % 1000000000 = t.nsec := by omega
      simp only [if_pos c1, if_neg hlo, if_neg hhi]
      exact hw

theorem clampDuration_range (x : Int) : minDuration ≤ clampDuration x ∧ clampDuration x ≤ maxDuration := by
  unfold clampDuration minDuration maxDuration
  split_ifs <;> omega

theorem clampDuration_mono {x y : Int} (h : x ≤ y) : clampDuration x ≤ clampDuration y := by
  unfold clampDuration minDuration maxDuration
  split_ifs <;> omega

theorem clampDuration_eq_self {x : Int} (h1 : minDuration ≤ x) (h2 : x ≤ maxDuration) :
    clampDuration x = x := by
  unfold minDuration at h1; unfold maxDuration at h2
  unfold clampDuration minDuration maxDuration
  split_ifs <;> omega

theorem subMono_range (a b : Int) : minDuration ≤ subMono a b ∧ subMono a b ≤ maxDuration := by
  have h1 := wrapInt_ge (a - b)
  have h2 := wrapInt_le (a - b)
  unfold subMono
  unfold minInt64 at h1; unfold maxInt64 at h2
  simp only []
  unfold minDuration maxDuration
  split_ifs <;> omega

/-- Every result of `Time.Sub` lies in the range of a `Duration`. -/
theorem Sub_range (t u : Time) : minDuration ≤ t.Sub u ∧ t.Sub u ≤ maxDuration := by
  have key : ∀ x : Int, ∀ c1 c2 : Prop, ∀ [Decidable c1] [Decidable c2],
      minDuration ≤ (if c1 then wrapInt x else if c2 then minDuration else maxDuration) ∧
      (if c1 then wrapInt x else if c2 then minDuration else maxDuration) ≤ maxDuration := by
    intro x c1 c2 _ _
    have h1 := wrapInt_ge x
    have h2 := wrapInt_le x
    unfold minInt64 at h1; unfold maxInt64 at h2
    unfold minDuration maxDuration
    split_ifs <;> omega
  unfold Time.Sub
  cases t.mono <;> cases u.mono <;> first | exact subMono_range _ _ | exact key _ _ _

theorem addSec_mono_some (t : Time) (q m : Int) (h : (t.addSec q).mono = some m) :
    t.mono = some m ∧ wallToInternal ≤ (t.addSec q).sec ∧
      (t.addSec q).sec ≤ wallToInternal + 8589934591 := by
  unfold Time.addSec Time.stripMono at h ⊢
  simp only [] at h ⊢
  split_ifs at h ⊢ with c1 c2 c3
  · simp only [] at h ⊢
    refine ⟨h, ?_, ?_⟩ <;> omega

theorem addWall_mono_some (t : Time) (d m : Int) (h : (t.addWall d).mono = some m) :
    t.mono = some m ∧ wallToInternal ≤ (t.addWall d).sec ∧
      (t.addWall d).sec ≤ wallToInternal + 8589934591 := by
  unfold Time.addWall at h ⊢
  simp only [] at h ⊢
  split_ifs at h ⊢ <;> exact addSec_mono_some _ _ _ h

theorem Add_mono_some (t : Time) (d m : Int) (h : (t.Add d).mono = some m) :
    minInt64 ≤ m ∧ m ≤ maxInt64 ∧ wallToInternal ≤ (t.addWall d).sec ∧
      (t.addWall d).sec ≤ wallToInternal + 8589934591 := by
  have hw : ∀ m', (t.addWall d).mono = some m' → _ := fun m' => addWall_mono_some t d m'
  unfold Time.Add at h
  simp only [] at h
  rw [show (if t.nsec + Int.tmod d 1000000000 ≥ 1000000000 then
        ({ t with nsec := t.nsec + Int.tmod d 1000000000 - 1000000000 } : Time).addSec
          (wrapInt (Int.tdiv d 1000000000 + 1))
      else if t.nsec + Int.tmod d 1000000000 < 0 then
        ({ t with nsec := t.nsec + Int.tmod d 1000000000 + 1000000000 } : Time).addSec
          (wrapInt (Int.tdiv d 1000000000 - 1))
      else ({ t with nsec := t.nsec + Int.tmod d 1000000000 } : Time).addSec
          (Int.tdiv d 1000000000)) = t.addWall d from rfl] at h
  cases hm : (t.addWall d).mono with
  | none => rw [hm] at h; simp only [] at h; rw [hm] at h; simp at h
  | some m' =>
    obtain ⟨-, h2, h3⟩ := hw m' hm
    rw [hm] at h
    simp only [] at h
    split_ifs at h
    · simp [Time.stripMono] at h
    · simp only [Option.some.injEq] at h
      subst h
      exact ⟨wrapInt_ge _, wrapInt_le _, h2, h3⟩

/-- Adding a duration keeps the representation invariant of `time.Time`. -/
theorem Add_valid (t : Time) (d : Int) (hv : t.Valid) (hd1 : minDuration ≤ d) (hd2 : d ≤ maxDuration) :
    (t.Add d).Valid := by
  obtain ⟨e1, e2⟩ := Add_wall t d hv hd1 hd2
  have hs := Add_sec t d
  have hr := satSec_range t.sec ((t.nsec + d) / 1000000000)
  refine ⟨by rw [e1]; exact hr.1, by rw [e1]; exact hr.2, by rw [e2]; omega, by rw [e2]; omega, ?_⟩
  intro m hm
  have := Add_mono_some t d m (by simpa using hm)
  rw [hs]
  exact this

/-! ## Facts about `fmt.Sprintf("%d", _)` -/

theorem digitVal_digitChar (d : Nat) (h : d < 10) : digitVal (digitChar d) = d := by
  interval_cases d <;> decide

theorem digitChar_ne_minus (d : Nat) : digitChar d ≠ '-' := by
  unfold digitChar
  split <;> decide

theorem valueLE_digitsLE (fuel n : Nat) (h : n < fuel) : valueLE (digitsLE fuel n) = n := by
  induction fuel generalizing n with
  | zero => omega
  | succ fuel ih =>
    unfold digitsLE
    by_cases h0 : n / 10 = 0
    · simp only [h0, if_true, valueLE, digitVal_digitChar _ (Nat.mod_lt n (by norm_num))]
      omega
    · simp only [h0, if_false, valueLE, digitVal_digitChar _ (Nat.mod_lt n (by norm_num))]
      rw [ih (n / 10) (by omega)]
      omega

theorem digitsLE_ne_minus (fuel n : Nat) : ∀ c ∈ digitsLE fuel n, c ≠ '-' := by
  induction fuel generalizing n with
  | zero => intro c hc; simp [digitsLE] at hc
  | succ fuel ih =>
    intro c hc
    unfold digitsLE at hc
    rcases List.mem_cons.mp hc with h | h
    · rw [h]; exact digitChar_ne_minus _
    · split_ifs at h
      · simp at h
      · exact ih _ c h

theorem formatNat_injective {a b : Nat} (h : formatNat a = formatNat b) : a = b := by
  unfold formatNat at h
  have h2 := List.reverse_injective h
  have ha := valueLE_digitsLE (a + 1) a (by omega)
  have hb := valueLE_digitsLE (b + 1) b (by omega)
  rw [h2] at ha
  omega

theorem formatNat_head_ne_minus (n : Nat) (rest : List Char) : formatNat n ≠ '-' :: rest := by
  intro h
  have hmem : '-' ∈ formatNat n := by rw [h]; exact List.mem_cons_self _ _
  unfold formatNat at hmem
  exact digitsLE_ne_minus _ _ _ (List.mem_reverse.mp hmem) rfl

/-- Distinct integers have distinct decimal strings. -/
theorem Sprintf_d_injective : Function.Injective Sprintf_d := by
  intro a b h
  unfold Sprintf_d at h
  split_ifs at h with ha hb hb
  · have h1 : formatNat a.natAbs = formatNat b.natAbs := by
      have := congrArg String.data h
      simpa using this
    have := formatNat_injective h1
    omega
  · have h1 := congrArg String.data h
    simp only at h1
    exact absurd h1.symm (formatNat_head_ne_minus _ _)
  · have h1 := congrArg String.data h
    simp only at h1
    exact absurd h1 (formatNat_head_ne_minus _ _)
  · have h1 : formatNat a.natAbs = formatNat b.natAbs := by
      have := congrArg String.data h
      simpa using this
    have := formatNat_injective h1
    omega

/-! ## Facts about maps -/

theorem mapIndex_mapAssign_self (m : GoMap) (k : String) (v : Int) :
    mapIndex (mapAssign m k v) k = v := by
  induction m with
  | nil => simp [mapAssign, mapIndex]
  | cons e rest ih =>
    obtain ⟨k', v'⟩ := e
    unfold mapAssign
    split_ifs with h
    · simp [mapIndex]
    · simp [mapIndex, h, ih]

theorem mapIndex_mapAssign_other (m : GoMap) (k j : String) (v : Int) (hkj : k ≠ j) :
    mapIndex (mapAssign m k v) j = mapIndex m j := by
  induction m with
  | nil => simp [mapAssign, mapIndex, hkj]
  | cons e rest ih =>
    obtain ⟨k', v'⟩ := e
    unfold mapAssign
    split_ifs with h
    · subst h; simp [mapIndex, hkj]
    · simp only [mapIndex, ih]

/-- The statement `m[k]++` raises the entry of `k` by one, with wrap-around, and leaves
every other entry as it was. -/
theorem mapIndex_mapIncr (m : GoMap) (k j : String) :
    mapIndex (mapIncr m k) j = if k = j then wrapInt (mapIndex m j + 1) else mapIndex m j := by
  unfold mapIncr
  split_ifs with h
  · subst h; exact mapIndex_mapAssign_self _ _ _
  · exact mapIndex_mapAssign_other _ _ _ _ h

theorem mem_mapKeys_mapAssign (m : GoMap) (k j : String) (v : Int) :
    j ∈ mapKeys (mapAssign m k v) ↔ j = k ∨ j ∈ mapKeys m := by
  induction m with
  | nil => simp [mapAssign, mapKeys]
  | cons e rest ih =>
    obtain ⟨k', v'⟩ := e
    unfold mapAssign
    unfold mapKeys at ih ⊢
    split_ifs with h
    · subst h; simp
    · simp only [List.map_cons, List.mem_cons, ih]
      tauto

theorem mem_mapKeys_mapIncr (m : GoMap) (k j : String) :
    j ∈ mapKeys (mapIncr m k) ↔ j = k ∨ j ∈ mapKeys m :=
  mem_mapKeys_mapAssign _ _ _ _

theorem mapSumFrom_wrap (c : Int) (m : GoMap) :
    wrapInt (mapSumFrom c m) = mapSumFrom (wrapInt c) m := by
  induction m generalizing c with
  | nil => rfl
  | cons e rest ih =>
    obtain ⟨k, v⟩ := e
    simp only [mapSumFrom]
    rw [ih, wrapInt_wrapInt_add]
    congr 1
    unfold wrapInt; omega

theorem mapSumFrom_add (c x : Int) (m : GoMap) :
    mapSumFrom (wrapInt (c + x)) m = wrapInt (mapSumFrom (wrapInt c) m + x) := by
  induction m generalizing c with
  | nil => simp only [mapSumFrom]; unfold wrapInt; omega
  | cons e rest ih =>
    obtain ⟨k, v⟩ := e
    simp only [mapSumFrom]
    have e1 : wrapInt (wrapInt (c + x) + v) = wrapInt ((c + v) + x) := by unfold wrapInt; omega
    have e2 : wrapInt (wrapInt c + v) = wrapInt (wrapInt (c + v)) := by unfold wrapInt; omega
    rw [e1, ih, e2]
    have e3 : wrapInt (wrapInt (c + v)) = wrapInt (c + v) := by unfold wrapInt; omega
    rw [e3]

theorem mapSumFrom_mapAssign (c : Int) (m : GoMap) (k : String) (v : Int) :
    mapSumFrom (wrapInt c) (mapAssign m k v) =
      wrapInt (mapSumFrom (wrapInt c) m + (v - mapIndex m k)) := by
  induction m generalizing c with
  | nil =>
    simp only [mapAssign, mapSumFrom, mapIndex]
    unfold wrapInt; omega
  | cons e rest ih =>
    obtain ⟨k', v'⟩ := e
    unfold mapAssign
    split_ifs with h
    · simp only [mapSumFrom, mapIndex, h, if_true]
      have e1 : wrapInt (wrapInt c + v) = wrapInt ((c + v') + (v - v')) := by unfold wrapInt; omega
      have e2 : wrapInt (wrapInt c + v') = wrapInt (c + v') := by unfold wrapInt; omega
      rw [e1, e2, mapSumFrom_add]
    · simp only [mapSumFrom, mapIndex, h, if_false]
      exact ih _

/-- The statement `m[k]++` raises the sum of the values by one, with wrap-around. -/
theorem mapSum_mapIncr (m : GoMap) (k : String) :
    mapSum (mapIncr m k) = wrapInt (mapSum m + 1) := by
  unfold mapSum mapIncr
  have h0 : (0 : Int) = wrapInt 0 := by decide
  have := mapSumFrom_mapAssign 0 m k (wrapInt (mapIndex m k + 1))
  rw [← h0] at this
  rw [this]
  unfold wrapInt; omega

theorem mapSum_range (m : GoMap) : minInt64 ≤ mapSum m ∧ mapSum m ≤ maxInt64 := by
  unfold mapSum
  have h0 : (0 : Int) = wrapInt 0 := by decide
  rw [h0, ← mapSumFrom_wrap]
  exact ⟨wrapInt_ge _, wrapInt_le _⟩

/-! ## Facts about the heap and the methods -/

theorem getD_set (l : List GoMap) (i j : Nat) (a : GoMap) :
    (l.set i a).getD j [] = if i = j ∧ i < l.length then a else l.getD j [] := by
  rw [List.getD_eq_getElem?_getD, List.getD_eq_getElem?_getD, List.getElem?_set]
  by_cases h : i = j
  · by_cases h2 : i < l.length
    · subst h; simp [h2]
    · subst h
      have : l[i]? = none := List.getElem?_eq_none (by omega)
      simp [h2, this]
  · simp [h]

/-- On a well-formed state `EndWithStatus` does not panic; it increments the entry of the
status key in both maps, in place, and adds the elapsed time. -/
theorem EndWithStatus_eq (w : World) (now start : Time) (status : Int) (h : w.WF) :
    Stats.EndWithStatus w now start status = some
      { heap := (w.heap.set w.mw.ResponseCounts
            (mapIncr (w.deref w.mw.ResponseCounts) (Sprintf_d status))).set
          w.mw.TotalResponseCounts (mapIncr (w.deref w.mw.TotalResponseCounts) (Sprintf_d status)),
        mw := { w.mw with
          TotalResponseTime := w.mw.TotalResponseTime.Add (now.Sub start) } } := by
  obtain ⟨h1, h2, h3, -⟩ := h
  unfold Stats.EndWithStatus heapIncr World.deref
  simp only [h1, if_true, List.length_set, h2]
  rw [getD_set]
  simp [h3]

theorem EndWithStatus_WF (w w' : World) (now start : Time) (status : Int) (h : w.WF)
    (he : Stats.EndWithStatus w now start status = some w') : w'.WF := by
  rw [EndWithStatus_eq w now start status h] at he
  simp only [Option.some.injEq] at he
  subst he
  obtain ⟨h1, h2, h3, h4⟩ := h
  refine ⟨?_, ?_, h3, ?_⟩
  · simpa using h1
  · simpa using h2
  · exact Add_valid _ _ h4 (Sub_range _ _).1 (Sub_range _ _).2

theorem EndWithStatus_view (w w' : World) (now start : Time) (status : Int) (h : w.WF)
    (he : Stats.EndWithStatus w now start status = some w') :
    w'.view = w.view.step (.EndWithStatus now start status) ∧
    w'.mw.ResponseCounts = w.mw.ResponseCounts ∧
    w'.mw.TotalResponseCounts = w.mw.TotalResponseCounts := by
  rw [EndWithStatus_eq w now start status h] at he
  simp only [Option.some.injEq] at he
  subst he
  obtain ⟨h1, h2, h3, h4⟩ := h
  refine ⟨?_, rfl, rfl⟩
  unfold World.view View.step World.deref
  simp only [getD_set, List.length_set]
  simp [h1, h2, h3, Ne.symm h3]

theorem ResetResponseCounts_WF (w : World) (h : w.WF) : (Stats.ResetResponseCounts w).WF := by
  obtain ⟨h1, h2, h3, h4⟩ := h
  unfold Stats.ResetResponseCounts
  refine ⟨?_, ?_, ?_, h4⟩
  · simp
  · simp; omega
  · simp only [ne_eq]; omega

theorem ResetResponseCounts_view (w : World) (h : w.WF) :
    (Stats.ResetResponseCounts w).view = w.view.step .ResetResponseCounts := by
  obtain ⟨h1, h2, h3, h4⟩ := h
  unfold Stats.ResetResponseCounts World.view View.step World.deref
  simp only [View.mk.injEq, true_and, and_true]
  constructor
  · rw [List.getD_append_right _ _ _ _ (le_refl _)]; simp
  · rw [List.getD_append _ _ _ _ h2]

/-- The average of `Data` is always defined: the division is guarded. -/
theorem Data_isSome (w : World) (now : Time) : ∃ d, Stats.Data w now = some d := by
  unfold Stats.Data divInt64
  simp only []
  by_cases h : mapSum (w.deref w.mw.TotalResponseCounts) > 0
  · have h0 : ¬ mapSum (w.deref w.mw.TotalResponseCounts) = 0 := by omega
    simp [h, h0]
  · simp [h]

/-- A run from a well-formed state does not panic, ends in a well-formed state, never
re-points `TotalResponseCounts`, and acts on the contents as `View.step` does. -/
theorem run_view (ops : List Op) (w : World) (h : w.WF) :
    ∃ w', run w ops = some w' ∧ w'.WF ∧ w'.view = ops.foldl View.step w.view ∧
      w'.mw.TotalResponseCounts = w.mw.TotalResponseCounts := by
  induction ops generalizing w with
  | nil => exact ⟨w, rfl, h, rfl, rfl⟩
  | cons op ops ih =>
    cases op with
    | EndWithStatus now start status =>
      have he := EndWithStatus_eq w now start status h
      obtain ⟨hv, -, ht⟩ := EndWithStatus_view w _ now start status h he
      obtain ⟨w', e1, e2, e3, e4⟩ := ih _ (EndWithStatus_WF w _ now start status h he)
      refine ⟨w', ?_, e2, ?_, ?_⟩
      · simp only [run, step, he, Option.some_bind]; exact e1
      · rw [e3, hv]; rfl
      · rw [e4, ht]
    | ResetResponseCounts =>
      obtain ⟨w', e1, e2, e3, e4⟩ := ih _ (ResetResponseCounts_WF w h)
      refine ⟨w', ?_, e2, ?_, ?_⟩
      · simp only [run, step, Option.some_bind]; exact e1
      · rw [e3, ResetResponseCounts_view w h]; rfl
      · rw [e4]; rfl
    | Data now =>
      obtain ⟨d, hd⟩ := Data_isSome w now
      obtain ⟨w', e1, e2, e3, e4⟩ := ih _ h
      refine ⟨w', ?_, e2, ?_, e4⟩
      · simp only [run, step, hd, Option.map_some', Option.some_bind]; exact e1
      · rw [e3]; rfl

theorem New_WF (now : Time) (pid : Int) : (New now pid).WF := by
  refine ⟨?_, ?_, ?_, ?_⟩
  · show (0 : Nat) < 2; omega
  · show (1 : Nat) < 2; omega
  · show (0 : Nat) ≠ 1; omega
  · show Time.zero.Valid; decide

/-! ## Facts about runs -/

theorem foldl_step_fixed (ops : List Op) (v : View) :
    (ops.foldl View.step v).Pid = v.Pid ∧ (ops.foldl View.step v).Uptime = v.Uptime := by
  induction ops generalizing v with
  | nil => exact ⟨rfl, rfl⟩
  | cons op ops ih =>
    rw [List.foldl_cons]
    obtain ⟨e1, e2⟩ := ih (v.step op)
    rw [e1, e2]
    cases op <;> exact ⟨rfl, rfl⟩

theorem foldl_step_time (ops : List Op) (v : View) :
    (ops.foldl View.step v).TotalResponseTime = (elapsed ops).foldl Time.Add v.TotalResponseTime := by
  induction ops generalizing v with
  | nil => rfl
  | cons op ops ih =>
    rw [List.foldl_cons, ih]
    cases op <;> rfl

theorem foldl_step_total_index (ops : List Op) (v : View) (k : String) :
    mapIndex (ops.foldl View.step v).TotalResponseCounts k =
      if (recordedKeys ops).count k = 0 then mapIndex v.TotalResponseCounts k
      else wrapInt (mapIndex v.TotalResponseCounts k + ((recordedKeys ops).count k : Nat)) := by
  induction ops generalizing v with
  | nil => simp [recordedKeys, recorded]
  | cons op ops ih =>
    rw [List.foldl_cons, ih]
    cases op with
    | EndWithStatus now start status =>
      have hk : recordedKeys (Op.EndWithStatus now start status :: ops) =
          Sprintf_d status :: recordedKeys ops := rfl
      have hs : (View.step v (Op.EndWithStatus now start status)).TotalResponseCounts =
          mapIncr v.TotalResponseCounts (Sprintf_d status) := rfl
      rw [hk, hs, mapIndex_mapIncr, List.count_cons]
      by_cases hkey : Sprintf_d status = k
      · subst hkey
        simp only [if_true, beq_self_eq_true]
        by_cases h0 : List.count (Sprintf_d status) (recordedKeys ops) = 0
        · rw [if_pos h0, if_neg (by omega), h0]
          rfl
        · rw [if_neg h0, if_neg (by omega), wrapInt_wrapInt_add]
          congr 1; push_cast; ring
      · have hb : (Sprintf_d status == k) = false := by simpa using hkey
        simp only [hkey, if_false, hb, Bool.false_eq_true, Nat.add_zero]
    | ResetResponseCounts => rfl
    | Data now => rfl

theorem foldl_step_total_sum (ops : List Op) (v : View) :
    mapSum (ops.foldl View.step v).TotalResponseCounts =
      wrapInt (mapSum v.TotalResponseCounts + ((recorded ops).length : Nat)) := by
  induction ops generalizing v with
  | nil =>
    have := mapSum_range v.TotalResponseCounts
    simp only [List.foldl_nil, recorded, List.length_nil, Nat.cast_zero, add_zero]
    exact (wrapInt_eq_self this.1 this.2).symm
  | cons op ops ih =>
    rw [List.foldl_cons, ih]
    cases op with
    | EndWithStatus now start status =>
      have hs : (View.step v (Op.EndWithStatus now start status)).TotalResponseCounts =
          mapIncr v.TotalResponseCounts (Sprintf_d status) := rfl
      rw [hs, mapSum_mapIncr, wrapInt_wrapInt_add]
      simp only [recorded, List.length_cons]
      congr 1; push_cast; ring
    | ResetResponseCounts => rfl
    | Data now => rfl

theorem foldl_step_total_keys (ops : List Op) (v : View) (k : String) :
    k ∈ mapKeys (ops.foldl View.step v).TotalResponseCounts ↔
      k ∈ mapKeys v.TotalResponseCounts ∨ k ∈ recordedKeys ops := by
  induction ops generalizing v with
  | nil => simp [recordedKeys, recorded]
  | cons op ops ih =>
    rw [List.foldl_cons, ih]
    cases op with
    | EndWithStatus now start status =>
      have hk : recordedKeys (Op.EndWithStatus now start status :: ops) =
          Sprintf_d status :: recordedKeys ops := rfl
      have hs : (View.step v (Op.EndWithStatus now start status)).TotalResponseCounts =
          mapIncr v.TotalResponseCounts (Sprintf_d status) := rfl
      rw [hk, hs, mem_mapKeys_mapIncr, List.mem_cons]
      tauto
    | ResetResponseCounts => rfl
    | Data now => rfl

theorem foldl_step_window_index (ops : List Op) (v : View) (acc : List Int)
    (h : ∀ k, mapIndex v.ResponseCounts k = wrapInt (((acc.map Sprintf_d).count k : Nat))) (k : String) :
    mapIndex (ops.foldl View.step v).ResponseCounts k =
      wrapInt ((((recordedSinceReset acc ops).map Sprintf_d).count k : Nat)) := by
  induction ops generalizing v acc with
  | nil => exact h k
  | cons op ops ih =>
    rw [List.foldl_cons]
    cases op with
    | EndWithStatus now start status =>
      refine ih _ (acc ++ [status]) ?_
      intro j
      have hs : (View.step v (Op.EndWithStatus now start status)).ResponseCounts =
          mapIncr v.ResponseCounts (Sprintf_d status) := rfl
      rw [hs, mapIndex_mapIncr, h j, List.map_append, List.count_append, List.map_singleton,
        List.count_singleton]
      by_cases hkey : Sprintf_d status = j
      · simp only [hkey, if_true, beq_self_eq_true]
        rw [wrapInt_wrapInt_add]; congr 1
      · have hb : (Sprintf_d status == j) = false := by simpa using hkey
        simp only [hkey, if_false, hb, Bool.false_eq_true, Nat.add_zero]
    | ResetResponseCounts =>
      refine ih _ [] ?_
      intro j
      show mapIndex [] j = _
      simp [mapIndex]; decide
    | Data now => exact ih _ acc h

theorem foldl_step_window_sum (ops : List Op) (v : View) (acc : List Int)
    (h : mapSum v.ResponseCounts = wrapInt ((acc.length : Nat))) :
    mapSum (ops.foldl View.step v).ResponseCounts =
      wrapInt (((recordedSinceReset acc ops).length : Nat)) := by
  induction ops generalizing v acc with
  | nil => exact h
  | cons op ops ih =>
    rw [List.foldl_cons]
    cases op with
    | EndWithStatus now start status =>
      refine ih _ (acc ++ [status]) ?_
      have hs : (View.step v (Op.EndWithStatus now start status)).ResponseCounts =
          mapIncr v.ResponseCounts (Sprintf_d status) := rfl
      rw [hs, mapSum_mapIncr, h, wrapInt_wrapInt_add]
      congr 1; simp
    | ResetResponseCounts =>
      refine ih _ [] ?_
      show mapSum [] = _
      decide
    | Data now => exact ih _ acc h

theorem foldl_step_window_keys (ops : List Op) (v : View) (acc : List Int)
    (h : ∀ k, k ∈ mapKeys v.ResponseCounts ↔ k ∈ acc.map Sprintf_d) (k : String) :
    k ∈ mapKeys (ops.foldl View.step v).ResponseCounts ↔
      k ∈ (recordedSinceReset acc ops).map Sprintf_d := by
  induction ops generalizing v acc with
  | nil => exact h k
  | cons op ops ih =>
    rw [List.foldl_cons]
    cases op with
    | EndWithStatus now start status =>
      refine ih _ (acc ++ [status]) ?_
      intro j
      have hs : (View.step v (Op.EndWithStatus now start status)).ResponseCounts =
          mapIncr v.ResponseCounts (Sprintf_d status) := rfl
      rw [hs, mem_mapKeys_mapIncr, h j]
      simp only [List.map_append, List.mem_append, List.map_singleton, List.mem_singleton]
      tauto
    | ResetResponseCounts =>
      refine ih _ [] ?_
      intro j
      show j ∈ mapKeys [] ↔ _
      simp [mapKeys]
    | Data now => exact ih _ acc h

/-- The calls since the last reset are the last calls of the run. -/
theorem recordedSinceReset_suffix (ops : List Op) (acc : List Int) :
    recordedSinceReset acc ops <:+ acc ++ recorded ops := by
  induction ops generalizing acc with
  | nil => simp [recordedSinceReset, recorded]
  | cons op ops ih =>
    cases op with
    | EndWithStatus now start status =>
      have := ih (acc ++ [status])
      simpa [recordedSinceReset, recorded] using this
    | ResetResponseCounts =>
      have := ih []
      simp only [recordedSinceReset, recorded]
      exact this.trans (List.suffix_append _ _)
    | Data now => exact ih acc

theorem elapsed_range (ops : List Op) : ∀ d ∈ elapsed ops, minDuration ≤ d ∧ d ≤ maxDuration := by
  induction ops with
  | nil => intro d hd; simp [elapsed] at hd
  | cons op ops ih =>
    cases op with
    | EndWithStatus now start status =>
      intro d hd
      simp only [elapsed, List.mem_cons] at hd
      rcases hd with h | h
      · rw [h]; exact Sub_range _ _
      · exact ih d h
    | ResetResponseCounts => exact ih
    | Data now => exact ih

/-- Durations added to a valid time accumulate exactly while every running total stays in
the seconds range of `time.Time`. -/
theorem foldl_Add_ns (ds : List Int) (t : Time) (hv : t.Valid)
    (hr : ∀ d ∈ ds, minDuration ≤ d ∧ d ≤ maxDuration) (ht : totalsRepresentable t.ns ds) :
    (ds.foldl Time.Add t).ns = t.ns + ds.sum ∧ (ds.foldl Time.Add t).Valid := by
  induction ds generalizing t with
  | nil => simp [hv]
  | cons d ds ih =>
    obtain ⟨h1, h2, h3⟩ := ht
    have hd := hr d (List.mem_cons_self _ _)
    have e := Add_ns t d hv hd.1 hd.2 h1 h2
    have hv' := Add_valid t d hv hd.1 hd.2
    rw [List.foldl_cons, List.sum_cons]
    obtain ⟨i1, i2⟩ := ih (t.Add d) hv' (fun x hx => hr x (List.mem_cons_of_mem _ hx)) (by rw [e]; exact h3)
    exact ⟨by rw [i1, e]; ring, i2⟩

theorem foldl_Add_valid (ds : List Int) (t : Time) (hv : t.Valid)
    (hr : ∀ d ∈ ds, minDuration ≤ d ∧ d ≤ maxDuration) : (ds.foldl Time.Add t).Valid := by
  induction ds generalizing t with
  | nil => exact hv
  | cons d ds ih =>
    have hd := hr d (List.mem_cons_self _ _)
    rw [List.foldl_cons]
    exact ih _ (Add_valid t d hv hd.1 hd.2) (fun x hx => hr x (List.mem_cons_of_mem _ hx))

theorem tdiv_range (a b : Int) (hb : 0 < b) (h1 : minInt64 ≤ a) (h2 : a ≤ maxInt64) :
    minInt64 ≤ Int.tdiv a b ∧ Int.tdiv a b ≤ maxInt64 := by
  unfold minInt64 at *; unfold maxInt64 at *
  rcases le_total 0 a with ha | ha
  · rw [Int.tdiv_eq_ediv ha (le_of_lt hb)]
    have h3 : a / b ≤ a := Int.ediv_le_self b ha
    have h4 : 0 ≤ a / b := Int.ediv_nonneg ha (le_of_lt hb)
    omega
  · have hn : 0 ≤ -a := by omega
    have e : Int.tdiv a b = -((-a) / b) := by
      rw [← Int.tdiv_eq_ediv hn (le_of_lt hb), Int.neg_tdiv, neg_neg]
    have h3 : (-a) / b ≤ -a := Int.ediv_le_self b hn
    have h4 : 0 ≤ (-a) / b := Int.ediv_nonneg hn (le_of_lt hb)
    omega

/-- The snapshot that `Data` returns, field by field. -/
theorem Data_eq (w : World) (now : Time) :
    ∃ d, Stats.Data w now = some d ∧ d.Pid = w.mw.Pid ∧
      d.StatusCodeCount = w.mw.ResponseCounts ∧
      d.TotalStatusCodeCount = w.mw.TotalResponseCounts ∧
      d.Count = mapSum (w.deref w.mw.ResponseCounts) ∧
      d.TotalCount = mapSum (w.deref w.mw.TotalResponseCounts) ∧
      d.TotalResponseTime = w.mw.TotalResponseTime.Sub Time.zero ∧
      d.AverageResponseTime =
        if d.TotalCount > 0 then Int.tdiv d.TotalResponseTime d.TotalCount else 0 := by
  unfold Stats.Data divInt64
  simp only []
  by_cases h : mapSum (w.deref w.mw.TotalResponseCounts) > 0
  · have h0 : ¬ mapSum (w.deref w.mw.TotalResponseCounts) = 0 := by omega
    have hr := Sub_range w.mw.TotalResponseTime Time.zero
    have := tdiv_range _ _ h hr.1 hr.2
    simp only [h, h0, if_true, if_false]
    refine ⟨_, rfl, rfl, rfl, rfl, rfl, rfl, rfl, ?_⟩
    simp only [h, if_true]
    exact wrapInt_eq_self this.1 this.2
  · simp only [h, if_false]
    refine ⟨_, rfl, rfl, rfl, rfl, rfl, rfl, rfl, ?_⟩
    simp only [h, if_false]

/-! ## Runs from a fresh recorder -/

theorem recorded_append (a b : List Op) : recorded (a ++ b) = recorded a ++ recorded b := by
  induction a with
  | nil => rfl
  | cons op a ih => cases op <;> simp [recorded, ih]

theorem recordedSinceReset_append (a b : List Op) (acc : List Int) :
    recordedSinceReset acc (a ++ b) = recordedSinceReset (recordedSinceReset acc a) b := by
  induction a generalizing acc with
  | nil => rfl
  | cons op a ih => cases op <;> simp [recordedSinceReset, ih]

theorem recorded_replicate (n : Nat) (now start : Time) (status : Int) :
    recorded (List.replicate n (Op.EndWithStatus now start status)) = List.replicate n status := by
  induction n with
  | zero => rfl
  | succ n ih => simp [List.replicate_succ, recorded, ih]

theorem recordedSinceReset_of_no_reset (ops : List Op) (acc : List Int)
    (h : Op.ResetResponseCounts ∉ ops) : recordedSinceReset acc ops = acc ++ recorded ops := by
  induction ops generalizing acc with
  | nil => simp [recordedSinceReset, recorded]
  | cons op ops ih =>
    have h2 : Op.ResetResponseCounts ∉ ops := fun hm => h (List.mem_cons_of_mem _ hm)
    cases op with
    | EndWithStatus now start status => simp [recordedSinceReset, recorded, ih _ h2]
    | ResetResponseCounts => exact absurd (List.mem_cons_self _ _) h
    | Data now => simp [recordedSinceReset, recorded, ih _ h2]

theorem length_elapsed (ops : List Op) : (elapsed ops).length = (recorded ops).length := by
  induction ops with
  | nil => rfl
  | cons op ops ih => cases op <;> simp [elapsed, recorded, ih]

theorem count_recordedKeys (ops : List Op) (s : Int) :
    (recordedKeys ops).count (Sprintf_d s) = (recorded ops).count s :=
  List.count_map_of_injective _ _ Sprintf_d_injective s

theorem wrapInt_zero : wrapInt 0 = 0 := by decide

theorem wrapInt_natCast {n : Nat} (h : (n : Int) ≤ maxInt64) : wrapInt (n : Int) = n :=
  wrapInt_eq_self (by unfold minInt64; omega) h

/-- A run from a fresh recorder does not panic, and both maps and the accumulated time
are determined by the calls of the run, up to the wrap-around of the counters. -/
theorem run_New (now : Time) (pid : Int) (ops : List Op) :
    ∃ w, run (New now pid) ops = some w ∧ w.WF ∧
      (∀ k, mapIndex (w.deref w.mw.TotalResponseCounts) k =
        wrapInt (((recordedKeys ops).count k : Nat))) ∧
      (∀ k, mapIndex (w.deref w.mw.ResponseCounts) k =
        wrapInt ((((recordedSinceReset [] ops).map Sprintf_d).count k : Nat))) ∧
      mapSum (w.deref w.mw.TotalResponseCounts) = wrapInt (((recorded ops).length : Nat)) ∧
      mapSum (w.deref w.mw.ResponseCounts) =
        wrapInt (((recordedSinceReset [] ops).length : Nat)) ∧
      (∀ k, k ∈ mapKeys (w.deref w.mw.TotalResponseCounts) ↔ k ∈ recordedKeys ops) ∧
      (∀ k, k ∈ mapKeys (w.deref w.mw.ResponseCounts) ↔
        k ∈ (recordedSinceReset [] ops).map Sprintf_d) ∧
      w.mw.TotalResponseTime = (elapsed ops).foldl Time.Add Time.zero := by
  obtain ⟨w, h1, h2, h3, -⟩ := run_view ops (New now pid) (New_WF now pid)
  have e0 : (New now pid).view.TotalResponseCounts = [] := rfl
  have e1 : (New now pid).view.ResponseCounts = [] := rfl
  have hT : w.deref w.mw.TotalResponseCounts = w.view.TotalResponseCounts := rfl
  have hR : w.deref w.mw.ResponseCounts = w.view.ResponseCounts := rfl
  have hC : w.mw.TotalResponseTime = w.view.TotalResponseTime := rfl
  refine ⟨w, h1, h2, ?_, ?_, ?_, ?_, ?_, ?_, ?_⟩
  · intro k
    rw [hT, h3, foldl_step_total_index, e0]
    split_ifs with h0
    · rw [h0]; simp [mapIndex, wrapInt_zero]
    · simp [mapIndex]
  · intro k
    rw [hR, h3]
    exact foldl_step_window_index ops _ [] (fun j => by rw [e1]; simp [mapIndex, wrapInt_zero]) k
  · rw [hT, h3, foldl_step_total_sum, e0]
    congr 1
    show (0 : Int) + _ = _
    omega
  · rw [hR, h3]
    exact foldl_step_window_sum ops _ [] (by rw [e1]; simp [mapSum, mapSumFrom, wrapInt_zero])
  · intro k
    rw [hT, h3, foldl_step_total_keys, e0]
    simp [mapKeys]
  · intro k
    rw [hR, h3]
    exact foldl_step_window_keys ops _ [] (fun j => by rw [e1]; simp [mapKeys]) k
  · rw [hC, h3, foldl_step_time]; rfl

/-! ## C1 -/

/-- C1, as amended: after any run of `EndWithStatus`, `ResetResponseCounts` and `Data` calls on
a fresh recorder in which `N` scopes were recorded, with `N` at most the largest `int`,
the snapshot has `TotalCount == N` and, for every status code `s`,
`TotalStatusCodeCount[Sprintf("%d", s)]` is the number of recorded scopes with status `s`. -/
theorem C1_total_counts (now : Time) (pid : Int) (ops : List Op) (now' : Time)
    (hN : ((recorded ops).length : Int) ≤ maxInt64) :
    ∃ w d, run (New now pid) ops = some w ∧ Stats.Data w now' = some d ∧
      d.TotalCount = (recorded ops).length ∧
      ∀ s : Int, mapIndex (w.deref d.TotalStatusCodeCount) (Sprintf_d s) = (recorded ops).count s := by
  obtain ⟨w, h1, -, h3, -, h5, -⟩ := run_New now pid ops
  obtain ⟨d, hd, -, -, hT, -, hTC, -⟩ := Data_eq w now'
  refine ⟨w, d, h1, hd, ?_, ?_⟩
  · rw [hTC, h5]; exact wrapInt_natCast hN
  · intro s
    rw [hT, h3, count_recordedKeys]
    have hle : (recorded ops).count s ≤ (recorded ops).length := List.count_le_length _ _
    exact wrapInt_natCast (by omega)

/-- A run of C1: two statuses, a reset and a snapshot in between. -/
theorem C1_total_counts_witness :
    ((recorded [Op.EndWithStatus ⟨63900000001, 0, none⟩ ⟨63900000000, 0, none⟩ 200,
        Op.ResetResponseCounts,
        Op.EndWithStatus ⟨63900000003, 0, none⟩ ⟨63900000002, 0, none⟩ 404,
        Op.Data ⟨63900000003, 0, none⟩,
        Op.EndWithStatus ⟨63900000005, 0, none⟩ ⟨63900000004, 0, none⟩ 200]).length : Int)
      ≤ maxInt64 ∧
    ∃ w d, run (New ⟨63900000000, 0, none⟩ 1)
        [Op.EndWithStatus ⟨63900000001, 0, none⟩ ⟨63900000000, 0, none⟩ 200,
         Op.ResetResponseCounts,
         Op.EndWithStatus ⟨63900000003, 0, none⟩ ⟨63900000002, 0, none⟩ 404,
         Op.Data ⟨63900000003, 0, none⟩,
         Op.EndWithStatus ⟨63900000005, 0, none⟩ ⟨63900000004, 0, none⟩ 200] = some w ∧
      Stats.Data w ⟨63900000006, 0, none⟩ = some d ∧
      d.TotalCount = (3 : Nat) ∧
      ∀ s : Int, mapIndex (w.deref d.TotalStatusCodeCount) (Sprintf_d s) =
        (([200, 404, 200] : List Int).count s : Nat) :=
  ⟨by decide, C1_total_counts ⟨63900000000, 0, none⟩ 1 _ ⟨63900000006, 0, none⟩ (by decide)⟩

/-- C1 fails as stated: after `2^63` recorded scopes the `int` counters have wrapped around,
and the snapshot reports `TotalCount == -2^63`, which is not the number of scopes. -/
theorem C1_counterexample :
    ∃ w d, run (New Time.zero 0)
        (List.replicate 9223372036854775808 (Op.EndWithStatus Time.zero Time.zero 200)) = some w ∧
      Stats.Data w Time.zero = some d ∧
      d.TotalCount = -9223372036854775808 ∧
      d.TotalCount ≠ ((recorded (List.replicate 9223372036854775808
        (Op.EndWithStatus Time.zero Time.zero 200))).length : Nat) := by
  obtain ⟨w, h1, -, -, -, h5, -⟩ := run_New Time.zero 0
    (List.replicate 9223372036854775808 (Op.EndWithStatus Time.zero Time.zero 200))
  obtain ⟨d, hd, -, -, -, -, hTC, -⟩ := Data_eq w Time.zero
  have hval : d.TotalCount = -9223372036854775808 := by
    rw [hTC, h5, recorded_replicate, List.length_replicate]
    rfl
  refine ⟨w, d, h1, hd, hval, ?_⟩
  rw [hval, recorded_replicate, List.length_replicate]
  omega

/-! ## C2 -/

/-- C2, as amended: after any run on a fresh recorder whose measured elapsed durations
are `d_1..d_N`, if every running total `d_1 + .. + d_j` stays within the seconds range
of a `time.Time` and the sum of all of them fits a `time.Duration`, then the total
response time that `Data` computes is the exact sum of `d_1..d_N` in nanoseconds,
whatever the status codes and the interleaved resets. -/
theorem C2_total_response_time (now : Time) (pid : Int) (ops : List Op) (now' : Time)
    (hrep : totalsRepresentable 0 (elapsed ops))
    (hlo : minDuration ≤ (elapsed ops).sum) (hhi : (elapsed ops).sum ≤ maxDuration) :
    ∃ w d, run (New now pid) ops = some w ∧ Stats.Data w now' = some d ∧
      d.TotalResponseTime = (elapsed ops).sum := by
  obtain ⟨w, h1, -, -, -, -, -, -, -, h9⟩ := run_New now pid ops
  obtain ⟨d, hd, -, -, -, -, -, hT, -⟩ := Data_eq w now'
  have hz : Time.zero.Valid := by decide
  have hns : Time.zero.ns = 0 := rfl
  obtain ⟨e1, e2⟩ := foldl_Add_ns (elapsed ops) Time.zero hz (elapsed_range ops) (by rw [hns]; exact hrep)
  refine ⟨w, d, h1, hd, ?_⟩
  rw [hT, h9, Sub_zero _ e2, e1, hns, zero_add]
  exact clampDuration_eq_self hlo hhi

/-- A run of C2: scopes of 100ms, 300ms and 2s with a reset in between. -/
theorem C2_total_response_time_witness :
    totalsRepresentable 0 (elapsed
      [Op.EndWithStatus ⟨63900000000, 100000000, none⟩ ⟨63900000000, 0, none⟩ 200,
       Op.ResetResponseCounts,
       Op.EndWithStatus ⟨63900000001, 0, none⟩ ⟨63900000000, 700000000, none⟩ 500,
       Op.EndWithStatus ⟨63900000004, 5, some 2000000123⟩ ⟨63900000002, 5, some 123⟩ 200]) ∧
    minDuration ≤ ([100000000, 300000000, 2000000000] : List Int).sum ∧
    ([100000000, 300000000, 2000000000] : List Int).sum ≤ maxDuration ∧
    ∃ w d, run (New ⟨63900000000, 0, none⟩ 1)
      [Op.EndWithStatus ⟨63900000000, 100000000, none⟩ ⟨63900000000, 0, none⟩ 200,
       Op.ResetResponseCounts,
       Op.EndWithStatus ⟨63900000001, 0, none⟩ ⟨63900000000, 700000000, none⟩ 500,
       Op.EndWithStatus ⟨63900000004, 5, some 2000000123⟩ ⟨63900000002, 5, some 123⟩ 200]
        = some w ∧
      Stats.Data w ⟨63900000005, 0, none⟩ = some d ∧
      d.TotalResponseTime = ([100000000, 300000000, 2000000000] : List Int).sum :=
  ⟨by decide, by decide, by decide,
    C2_total_response_time ⟨63900000000, 0, none⟩ 1 _ ⟨63900000005, 0, none⟩
      (by decide) (by decide) (by decide)⟩

/-- C2 fails as stated: two scopes whose start time is the zero `time.Time` each measure the
saturated duration `maxDuration`; the sum of the two is `18446744073709551614` nanoseconds
and `Data` reports `9223372036854775807`. -/
theorem C2_counterexample :
    ∃ w d, run (New ⟨63900000000, 0, some 0⟩ 1)
        [Op.EndWithStatus ⟨63900000000, 0, some 1000⟩ Time.zero 200,
         Op.EndWithStatus ⟨63900000001, 0, some 2000⟩ Time.zero 200] = some w ∧
      Stats.Data w ⟨63900000002, 0, some 3000⟩ = some d ∧
      elapsed [Op.EndWithStatus ⟨63900000000, 0, some 1000⟩ Time.zero 200,
               Op.EndWithStatus ⟨63900000001, 0, some 2000⟩ Time.zero 200]
        = [9223372036854775807, 9223372036854775807] ∧
      d.TotalResponseTime = 9223372036854775807 ∧
      d.TotalResponseTime ≠
        (elapsed [Op.EndWithStatus ⟨63900000000, 0, some 1000⟩ Time.zero 200,
                  Op.EndWithStatus ⟨63900000001, 0, some 2000⟩ Time.zero 200]).sum := by
  refine ⟨_, _, rfl, rfl, ?_, ?_, ?_⟩ <;> decide

/-! ## C3 -/

/-- C3: in every state `ResetResponseCounts` leaves `ResponseCounts` an empty map, also when
it is called a second time, and the second call does not change the contents of the
recorder; it changes neither the reference `TotalResponseCounts` nor the contents of any
existing map, nor `TotalResponseTime`, `Pid` or `Uptime`. -/
theorem C3_reset_idempotent (w : World) :
    (Stats.ResetResponseCounts w).deref (Stats.ResetResponseCounts w).mw.ResponseCounts = [] ∧
    (Stats.ResetResponseCounts (Stats.ResetResponseCounts w)).deref
      (Stats.ResetResponseCounts (Stats.ResetResponseCounts w)).mw.ResponseCounts = [] ∧
    (Stats.ResetResponseCounts (Stats.ResetResponseCounts w)).view =
      (Stats.ResetResponseCounts w).view ∧
    (Stats.ResetResponseCounts w).view = { w.view with ResponseCounts := [] } ∧
    (Stats.ResetResponseCounts w).mw.TotalResponseCounts = w.mw.TotalResponseCounts ∧
    (Stats.ResetResponseCounts w).deref w.mw.TotalResponseCounts =
      w.deref w.mw.TotalResponseCounts ∧
    (Stats.ResetResponseCounts w).mw.TotalResponseTime = w.mw.TotalResponseTime ∧
    (Stats.ResetResponseCounts w).mw.Pid = w.mw.Pid ∧
    (Stats.ResetResponseCounts w).mw.Uptime = w.mw.Uptime := by
  have hnew : ∀ u : World, (Stats.ResetResponseCounts u).deref
      (Stats.ResetResponseCounts u).mw.ResponseCounts = [] := by
    intro u
    unfold Stats.ResetResponseCounts World.deref
    simp only []
    rw [List.getD_append_right _ _ _ _ (le_refl _)]
    simp
  have hold : ∀ (u : World) (r : Nat), (Stats.ResetResponseCounts u).deref r = u.deref r := by
    intro u r
    unfold Stats.ResetResponseCounts World.deref
    simp only []
    rcases Nat.lt_or_ge r u.heap.length with h | h
    · rw [List.getD_append _ _ _ _ h]
    · rw [List.getD_append_right _ _ _ _ h, List.getD_eq_default _ _ h]
      rcases Nat.eq_zero_or_pos (r - u.heap.length) with h0 | h0
      · rw [h0]; rfl
      · rw [List.getD_eq_default _ _ (by simp only [List.length_singleton]; omega)]
  have hview : ∀ u : World, (Stats.ResetResponseCounts u).view =
      { u.view with ResponseCounts := [] } := by
    intro u
    unfold World.view
    rw [hnew u]
    have := hold u u.mw.TotalResponseCounts
    simp only [View.mk.injEq, true_and, and_true]
    exact ⟨rfl, rfl, this, rfl⟩
  refine ⟨hnew w, hnew _, ?_, hview w, rfl, hold w _, rfl, rfl, rfl⟩
  rw [hview, hview]

/-! ## C4 -/

theorem Sprintf_d_200 : Sprintf_d 200 = "200" := by decide

/-- C4, as amended: in every well-formed state, right after `ResetResponseCounts` the
snapshot has `Count == 0`; if one scope with status 200 is then recorded, the snapshot
has `StatusCodeCount["200"] == 1` and `Count == 1`, while `TotalStatusCodeCount["200"]`
is its value before the reset plus 1, provided that value is below the largest `int`.
After a reset followed by calls without a further reset that record at most `2^63 - 1`
scopes, `StatusCodeCount` holds the per-status counts of the scopes recorded since the
reset and `Count` their number. -/
theorem C4_window_after_reset (w : World) (hwf : w.WF)
    (hlo : minInt64 ≤ mapIndex (w.deref w.mw.TotalResponseCounts) "200")
    (hhi : mapIndex (w.deref w.mw.TotalResponseCounts) "200" < maxInt64)
    (ops : List Op) (hnr : Op.ResetResponseCounts ∉ ops)
    (hN : ((recorded ops).length : Int) ≤ maxInt64) (now start now' : Time) :
    (∃ d, Stats.Data (Stats.ResetResponseCounts w) now' = some d ∧ d.Count = 0) ∧
    (∃ w1 d, Stats.EndWithStatus (Stats.ResetResponseCounts w) now start 200 = some w1 ∧
      Stats.Data w1 now' = some d ∧
      mapIndex (w1.deref d.StatusCodeCount) "200" = 1 ∧ d.Count = 1 ∧
      mapIndex (w1.deref d.TotalStatusCodeCount) "200" =
        mapIndex (w.deref w.mw.TotalResponseCounts) "200" + 1) ∧
    (∃ w2 d, run (Stats.ResetResponseCounts w) ops = some w2 ∧ Stats.Data w2 now' = some d ∧
      d.Count = (recorded ops).length ∧
      ∀ s : Int, mapIndex (w2.deref d.StatusCodeCount) (Sprintf_d s) = (recorded ops).count s) := by
  have hwf0 := ResetResponseCounts_WF w hwf
  have hv0 := ResetResponseCounts_view w hwf
  have hR0 : (Stats.ResetResponseCounts w).view.ResponseCounts = [] := by rw [hv0]; rfl
  have hT0 : (Stats.ResetResponseCounts w).view.TotalResponseCounts =
      w.deref w.mw.TotalResponseCounts := by rw [hv0]; rfl
  refine ⟨?_, ?_, ?_⟩
  · obtain ⟨d, hd, -, -, -, hC, -⟩ := Data_eq (Stats.ResetResponseCounts w) now'
    refine ⟨d, hd, ?_⟩
    rw [hC]
    show mapSum (Stats.ResetResponseCounts w).view.ResponseCounts = 0
    rw [hR0]; rfl
  · have he := EndWithStatus_eq (Stats.ResetResponseCounts w) now start 200 hwf0
    obtain ⟨hv1, -, -⟩ := EndWithStatus_view _ _ now start 200 hwf0 he
    obtain ⟨d, hd, -, hS, hT, hC, -⟩ := Data_eq _ now'
    refine ⟨_, d, he, hd, ?_, ?_, ?_⟩
    · rw [hS]
      show mapIndex (World.view _).ResponseCounts "200" = 1
      rw [hv1]
      show mapIndex (mapIncr (Stats.ResetResponseCounts w).view.ResponseCounts (Sprintf_d 200)) "200" = 1
      rw [hR0, Sprintf_d_200, mapIndex_mapIncr]
      decide
    · rw [hC]
      show mapSum (World.view _).ResponseCounts = 1
      rw [hv1]
      show mapSum (mapIncr (Stats.ResetResponseCounts w).view.ResponseCounts (Sprintf_d 200)) = 1
      rw [hR0, mapSum_mapIncr]
      decide
    · rw [hT]
      show mapIndex (World.view _).TotalResponseCounts "200" = _
      rw [hv1]
      show mapIndex (mapIncr (Stats.ResetResponseCounts w).view.TotalResponseCounts
        (Sprintf_d 200)) "200" = _
      rw [hT0, Sprintf_d_200, mapIndex_mapIncr, if_pos rfl]
      exact wrapInt_eq_self (by omega) (by omega)
  · obtain ⟨w2, h1, -, h3, -⟩ := run_view ops _ hwf0
    obtain ⟨d, hd, -, hS, -, hC, -⟩ := Data_eq w2 now'
    have hrs : recordedSinceReset [] ops = recorded ops := by
      rw [recordedSinceReset_of_no_reset ops [] hnr]; rfl
    refine ⟨w2, d, h1, hd, ?_, ?_⟩
    · rw [hC]
      show mapSum w2.view.ResponseCounts = _
      rw [h3, foldl_step_window_sum ops _ [] (by rw [hR0]; simp [mapSum, mapSumFrom, wrapInt_zero]),
        hrs]
      exact wrapInt_natCast hN
    · intro s
      rw [hS]
      show mapIndex w2.view.ResponseCounts _ = _
      rw [h3, foldl_step_window_index ops _ []
        (fun j => by rw [hR0]; simp [mapIndex, wrapInt_zero]), hrs]
      have e : (List.map Sprintf_d (recorded ops)).count (Sprintf_d s) = (recorded ops).count s :=
        count_recordedKeys ops s
      rw [e]
      have hle : (recorded ops).count s ≤ (recorded ops).length := List.count_le_length _ _
      exact wrapInt_natCast (by omega)

/-- A state of C4 with seven earlier 200s, and two scopes recorded after the reset. -/
theorem C4_window_after_reset_witness :
    (World.mk [[("200", 3)], [("200", 7), ("404", 2)]]
      ⟨⟨63900000000, 0, none⟩, 1, 0, 1, ⟨5, 0, none⟩⟩).WF ∧
    Op.ResetResponseCounts ∉
      [Op.EndWithStatus ⟨63900000001, 0, none⟩ ⟨63900000000, 0, none⟩ 404,
       Op.EndWithStatus ⟨63900000002, 0, none⟩ ⟨63900000001, 0, none⟩ 404] ∧
    (∃ d, Stats.Data (Stats.ResetResponseCounts (World.mk [[("200", 3)], [("200", 7), ("404", 2)]]
        ⟨⟨63900000000, 0, none⟩, 1, 0, 1, ⟨5, 0, none⟩⟩)) ⟨63900000003, 0, none⟩ = some d ∧
      d.Count = 0) ∧
    (∃ w1 d, Stats.EndWithStatus
        (Stats.ResetResponseCounts (World.mk [[("200", 3)], [("200", 7), ("404", 2)]]
          ⟨⟨63900000000, 0, none⟩, 1, 0, 1, ⟨5, 0, none⟩⟩))
        ⟨63900000002, 0, none⟩ ⟨63900000001, 0, none⟩ 200 = some w1 ∧
      Stats.Data w1 ⟨63900000003, 0, none⟩ = some d ∧
      mapIndex (w1.deref d.StatusCodeCount) "200" = 1 ∧ d.Count = 1 ∧
      mapIndex (w1.deref d.TotalStatusCodeCount) "200" =
        mapIndex ((World.mk [[("200", 3)], [("200", 7), ("404", 2)]]
          ⟨⟨63900000000, 0, none⟩, 1, 0, 1, ⟨5, 0, none⟩⟩).deref 1) "200" + 1) ∧
    (∃ w2 d, run (Stats.ResetResponseCounts (World.mk [[("200", 3)], [("200", 7), ("404", 2)]]
        ⟨⟨63900000000, 0, none⟩, 1, 0, 1, ⟨5, 0, none⟩⟩))
        [Op.EndWithStatus ⟨63900000001, 0, none⟩ ⟨63900000000, 0, none⟩ 404,
         Op.EndWithStatus ⟨63900000002, 0, none⟩ ⟨63900000001, 0, none⟩ 404] = some w2 ∧
      Stats.Data w2 ⟨63900000003, 0, none⟩ = some d ∧
      d.Count = (2 : Nat) ∧
      ∀ s : Int, mapIndex (w2.deref d.StatusCodeCount) (Sprintf_d s) =
        (([404, 404] : List Int).count s : Nat)) :=
  ⟨by decide, by decide,
    C4_window_after_reset (World.mk [[("200", 3)], [("200", 7), ("404", 2)]]
      ⟨⟨63900000000, 0, none⟩, 1, 0, 1, ⟨5, 0, none⟩⟩) (by decide) (by decide) (by decide)
      [Op.EndWithStatus ⟨63900000001, 0, none⟩ ⟨63900000000, 0, none⟩ 404,
       Op.EndWithStatus ⟨63900000002, 0, none⟩ ⟨63900000001, 0, none⟩ 404]
      (by decide) (by decide) ⟨63900000002, 0, none⟩ ⟨63900000001, 0, none⟩
      ⟨63900000003, 0, none⟩⟩

/-- C4 fails as stated: in a state whose `TotalResponseCounts["200"]` is the largest `int`,
a reset followed by one scope with status 200 leaves `TotalStatusCodeCount["200"]` at
`-2^63`, not at the value before the reset plus 1. -/
theorem C4_counterexample :
    ∃ w1 d, Stats.EndWithStatus
        (Stats.ResetResponseCounts (World.mk [[], [("200", 9223372036854775807)]]
          ⟨⟨63900000000, 0, none⟩, 1, 0, 1, Time.zero⟩))
        ⟨63900000002, 0, none⟩ ⟨63900000001, 0, none⟩ 200 = some w1 ∧
      Stats.Data w1 ⟨63900000003, 0, none⟩ = some d ∧
      mapIndex ((World.mk [[], [("200", 9223372036854775807)]]
        ⟨⟨63900000000, 0, none⟩, 1, 0, 1, Time.zero⟩).deref 1) "200" = 9223372036854775807 ∧
      mapIndex (w1.deref d.TotalStatusCodeCount) "200" = -9223372036854775808 ∧
      mapIndex (w1.deref d.TotalStatusCodeCount) "200" ≠
        mapIndex ((World.mk [[], [("200", 9223372036854775807)]]
          ⟨⟨63900000000, 0, none⟩, 1, 0, 1, Time.zero⟩).deref 1) "200" + 1 := by
  refine ⟨_, _, rfl, rfl, ?_, ?_, ?_⟩ <;> decide

/-! ## C5 -/

/-- C5: in every state whose total count is greater than 0, `Data` returns a snapshot whose
average response time is the total response time divided by the total count (the
truncated quotient of the nanosecond counts); and after any run on a fresh recorder that
records exactly two scopes, of 100ms and 300ms, with any status codes, the average
response time is 200ms. -/
theorem C5_average (w : World) (now : Time)
    (hpos : 0 < mapSum (w.deref w.mw.TotalResponseCounts))
    (t0 : Time) (pid : Int) (ops : List Op) (now' : Time)
    (hel : elapsed ops = [100 * Millisecond, 300 * Millisecond]) :
    (∃ d, Stats.Data w now = some d ∧
      d.TotalCount = mapSum (w.deref w.mw.TotalResponseCounts) ∧
      d.TotalResponseTime = w.mw.TotalResponseTime.Sub Time.zero ∧
      d.AverageResponseTime = Int.tdiv d.TotalResponseTime d.TotalCount) ∧
    (∃ w2 d, run (New t0 pid) ops = some w2 ∧ Stats.Data w2 now' = some d ∧
      d.TotalCount = 2 ∧ d.TotalResponseTime = 400 * Millisecond ∧
      d.AverageResponseTime = 200 * Millisecond) := by
  constructor
  · obtain ⟨d, hd, -, -, -, -, hTC, hT, hA⟩ := Data_eq w now
    refine ⟨d, hd, hTC, hT, ?_⟩
    rw [hA, if_pos (by rw [hTC]; exact hpos)]
  · obtain ⟨w2, h1, -, -, -, h5, -, -, -, h9⟩ := run_New t0 pid ops
    obtain ⟨d, hd, -, -, -, -, hTC, hT, hA⟩ := Data_eq w2 now'
    have hlen : (recorded ops).length = 2 := by rw [← length_elapsed, hel]; rfl
    have hcount : d.TotalCount = 2 := by rw [hTC, h5, hlen]; decide
    have htime : d.TotalResponseTime = 400 * Millisecond := by
      rw [hT, h9, hel]; decide
    refine ⟨w2, d, h1, hd, hcount, htime, ?_⟩
    rw [hA, hcount, htime]
    decide

/-- A state of C5 with three recorded scopes and 10s of response time, and a run of two
scopes of 100ms and 300ms with different status codes. -/
theorem C5_average_witness :
    0 < mapSum ((World.mk [[("200", 1)], [("200", 2), ("500", 1)]]
      ⟨⟨63900000000, 0, none⟩, 1, 0, 1, ⟨10, 0, none⟩⟩).deref 1) ∧
    elapsed [Op.EndWithStatus ⟨63900000000, 100000000, none⟩ ⟨63900000000, 0, none⟩ 200,
             Op.EndWithStatus ⟨63900000001, 0, none⟩ ⟨63900000000, 700000000, none⟩ 500]
      = [100 * Millisecond, 300 * Millisecond] ∧
    (∃ d, Stats.Data (World.mk [[("200", 1)], [("200", 2), ("500", 1)]]
        ⟨⟨63900000000, 0, none⟩, 1, 0, 1, ⟨10, 0, none⟩⟩) ⟨63900000000, 0, none⟩ = some d ∧
      d.TotalCount = 3 ∧ d.TotalResponseTime = 10000000000 ∧
      d.AverageResponseTime = Int.tdiv d.TotalResponseTime d.TotalCount) ∧
    (∃ w2 d, run (New ⟨63900000000, 0, none⟩ 1)
        [Op.EndWithStatus ⟨63900000000, 100000000, none⟩ ⟨63900000000, 0, none⟩ 200,
         Op.EndWithStatus ⟨63900000001, 0, none⟩ ⟨63900000000, 700000000, none⟩ 500] = some w2 ∧
      Stats.Data w2 ⟨63900000002, 0, none⟩ = some d ∧
      d.TotalCount = 2 ∧ d.TotalResponseTime = 400 * Millisecond ∧
      d.AverageResponseTime = 200 * Millisecond) :=
  ⟨by decide, by decide,
    C5_average (World.mk [[("200", 1)], [("200", 2), ("500", 1)]]
      ⟨⟨63900000000, 0, none⟩, 1, 0, 1, ⟨10, 0, none⟩⟩) ⟨63900000000, 0, none⟩ (by decide)
      ⟨63900000000, 0, none⟩ 1
      [Op.EndWithStatus ⟨63900000000, 100000000, none⟩ ⟨63900000000, 0, none⟩ 200,
       Op.EndWithStatus ⟨63900000001, 0, none⟩ ⟨63900000000, 700000000, none⟩ 500]
      ⟨63900000002, 0, none⟩ (by decide)⟩

/-! ## C6 -/

/-- C6: in every state in which the values of `TotalResponseCounts` sum to 0, a freshly
constructed recorder in particular, `Data` returns a snapshot (the division is not
performed, so there is no division by zero) and the average response time is zero. -/
theorem C6_zero_division_guard (w : World) (now : Time)
    (h0 : mapSum (w.deref w.mw.TotalResponseCounts) = 0) (t0 : Time) (pid : Int) :
    (∃ d, Stats.Data w now = some d ∧ d.TotalCount = 0 ∧ d.AverageResponseTime = 0) ∧
    (∃ d, Stats.Data (New t0 pid) now = some d ∧ d.TotalCount = 0 ∧ d.AverageResponseTime = 0) := by
  have key : ∀ u : World, mapSum (u.deref u.mw.TotalResponseCounts) = 0 →
      ∃ d, Stats.Data u now = some d ∧ d.TotalCount = 0 ∧ d.AverageResponseTime = 0 := by
    intro u hu
    obtain ⟨d, hd, -, -, -, -, hTC, -, hA⟩ := Data_eq u now
    have hz : d.TotalCount = 0 := by rw [hTC, hu]
    refine ⟨d, hd, hz, ?_⟩
    rw [hA, if_neg (by rw [hz]; decide)]
  exact ⟨key w h0, key _ rfl⟩

/-- A state of C6 whose total map holds a zero entry, next to a fresh recorder. -/
theorem C6_zero_division_guard_witness :
    mapSum ((World.mk [[], [("200", 0)]]
      ⟨⟨63900000000, 0, none⟩, 1, 0, 1, ⟨10, 0, none⟩⟩).deref 1) = 0 ∧
    (∃ d, Stats.Data (World.mk [[], [("200", 0)]]
        ⟨⟨63900000000, 0, none⟩, 1, 0, 1, ⟨10, 0, none⟩⟩) ⟨63900000001, 0, none⟩ = some d ∧
      d.TotalCount = 0 ∧ d.AverageResponseTime = 0) ∧
    (∃ d, Stats.Data (New ⟨63900000000, 0, none⟩ 1) ⟨63900000001, 0, none⟩ = some d ∧
      d.TotalCount = 0 ∧ d.AverageResponseTime = 0) :=
  ⟨by decide,
    C6_zero_division_guard (World.mk [[], [("200", 0)]]
      ⟨⟨63900000000, 0, none⟩, 1, 0, 1, ⟨10, 0, none⟩⟩) ⟨63900000001, 0, none⟩ (by decide)
      ⟨63900000000, 0, none⟩ 1⟩

/-! ## C7 -/

/-- C7 fails on the code: `Data` stores the recorder's own maps in the snapshot.  On a fresh
recorder the snapshot `d` reads `d.StatusCodeCount["200"] == 0` and
`d.TotalStatusCodeCount["200"] == 0` when `Data` returns; after a later
`EndWithStatus` with status 200 the same snapshot reads 1 in both maps. -/
theorem C7_snapshot_shares_maps :
    ∃ d w1, Stats.Data (New ⟨63900000000, 0, none⟩ 1) ⟨63900000001, 0, none⟩ = some d ∧
      Stats.EndWithStatus (New ⟨63900000000, 0, none⟩ 1) ⟨63900000003, 0, none⟩
        ⟨63900000002, 0, none⟩ 200 = some w1 ∧
      mapIndex ((New ⟨63900000000, 0, none⟩ 1).deref d.StatusCodeCount) "200" = 0 ∧
      mapIndex ((New ⟨63900000000, 0, none⟩ 1).deref d.TotalStatusCodeCount) "200" = 0 ∧
      mapIndex (w1.deref d.StatusCodeCount) "200" = 1 ∧
      mapIndex (w1.deref d.TotalStatusCodeCount) "200" = 1 := by
  refine ⟨_, _, rfl, rfl, ?_, ?_, ?_, ?_⟩ <;> decide

/-- One call on a well-formed state does not panic, keeps the state well-formed and the
reference `TotalResponseCounts`, and acts on the contents as `View.step` does. -/
theorem step_view (w : World) (op : Op) (h : w.WF) :
    ∃ w', step w op = some w' ∧ w'.WF ∧ w'.view = w.view.step op ∧
      w'.mw.TotalResponseCounts = w.mw.TotalResponseCounts := by
  cases op with
  | EndWithStatus now start status =>
    have he := EndWithStatus_eq w now start status h
    obtain ⟨hv, -, ht⟩ := EndWithStatus_view w _ now start status h he
    exact ⟨_, he, EndWithStatus_WF w _ now start status h he, hv, ht⟩
  | ResetResponseCounts =>
    exact ⟨_, rfl, ResetResponseCounts_WF w h, ResetResponseCounts_view w h, rfl⟩
  | Data now =>
    obtain ⟨d, hd⟩ := Data_isSome w now
    refine ⟨w, ?_, h, rfl, rfl⟩
    simp only [step, hd, Option.map_some']

/-! ## C8 -/

/-- C8, as amended: in every state reached from a fresh recorder by a run that records at
most `2^63 - 1` scopes, every key of `ResponseCounts` is a key of `TotalResponseCounts`,
`ResponseCounts[k] <= TotalResponseCounts[k]` for every key `k`, and the snapshot has
`Count <= TotalCount`. -/
theorem C8_window_le_total (now : Time) (pid : Int) (ops : List Op) (now' : Time)
    (hN : ((recorded ops).length : Int) ≤ maxInt64) :
    ∃ w d, run (New now pid) ops = some w ∧ Stats.Data w now' = some d ∧
      (∀ k, k ∈ mapKeys (w.deref w.mw.ResponseCounts) →
        k ∈ mapKeys (w.deref w.mw.TotalResponseCounts)) ∧
      (∀ k, mapIndex (w.deref w.mw.ResponseCounts) k ≤
        mapIndex (w.deref w.mw.TotalResponseCounts) k) ∧
      d.Count ≤ d.TotalCount := by
  obtain ⟨w, h1, -, h3, h4, h5, h6, h7, h8, -⟩ := run_New now pid ops
  obtain ⟨d, hd, -, -, -, hC, hTC, -⟩ := Data_eq w now'
  have hsub : (recordedSinceReset [] ops).Sublist (recorded ops) := by
    have := (recordedSinceReset_suffix ops []).sublist
    simpa using this
  have hsubk : ((recordedSinceReset [] ops).map Sprintf_d).Sublist (recordedKeys ops) :=
    hsub.map Sprintf_d
  have hlen : (recordedSinceReset [] ops).length ≤ (recorded ops).length := hsub.length_le
  refine ⟨w, d, h1, hd, ?_, ?_, ?_⟩
  · intro k hk
    exact (h7 k).mpr (hsubk.subset ((h8 k).mp hk))
  · intro k
    rw [h3, h4]
    have hc : ((recordedSinceReset [] ops).map Sprintf_d).count k ≤ (recordedKeys ops).count k :=
      hsubk.count_le k
    have hl : (recordedKeys ops).count k ≤ (recorded ops).length := by
      have := List.count_le_length k (recordedKeys ops)
      simpa [recordedKeys] using this
    rw [wrapInt_natCast (by omega), wrapInt_natCast (by omega)]
    exact_mod_cast hc
  · rw [hC, hTC, h5, h6, wrapInt_natCast (by omega), wrapInt_natCast hN]
    exact_mod_cast hlen

/-- A run of C8 with a reset between the recorded scopes. -/
theorem C8_window_le_total_witness :
    ((recorded [Op.EndWithStatus ⟨63900000001, 0, none⟩ ⟨63900000000, 0, none⟩ 200,
        Op.EndWithStatus ⟨63900000002, 0, none⟩ ⟨63900000001, 0, none⟩ 404,
        Op.ResetResponseCounts,
        Op.EndWithStatus ⟨63900000003, 0, none⟩ ⟨63900000002, 0, none⟩ 200]).length : Int)
      ≤ maxInt64 ∧
    ∃ w d, run (New ⟨63900000000, 0, none⟩ 1)
        [Op.EndWithStatus ⟨63900000001, 0, none⟩ ⟨63900000000, 0, none⟩ 200,
         Op.EndWithStatus ⟨63900000002, 0, none⟩ ⟨63900000001, 0, none⟩ 404,
         Op.ResetResponseCounts,
         Op.EndWithStatus ⟨63900000003, 0, none⟩ ⟨63900000002, 0, none⟩ 200] = some w ∧
      Stats.Data w ⟨63900000004, 0, none⟩ = some d ∧
      (∀ k, k ∈ mapKeys (w.deref w.mw.ResponseCounts) →
        k ∈ mapKeys (w.deref w.mw.TotalResponseCounts)) ∧
      (∀ k, mapIndex (w.deref w.mw.ResponseCounts) k ≤
        mapIndex (w.deref w.mw.TotalResponseCounts) k) ∧
      d.Count ≤ d.TotalCount :=
  ⟨by decide, C8_window_le_total ⟨63900000000, 0, none⟩ 1 _ ⟨63900000004, 0, none⟩ (by decide)⟩

/-- C8 fails as stated: after `2^63 - 1` scopes with status 200, a reset and one more scope
with status 200, the counter of the total map has wrapped around:
`ResponseCounts["200"] == 1` and `TotalResponseCounts["200"] == -2^63`. -/
theorem C8_counterexample :
    ∃ w, run (New Time.zero 0)
        (List.replicate 9223372036854775807 (Op.EndWithStatus Time.zero Time.zero 200) ++
          [Op.ResetResponseCounts, Op.EndWithStatus Time.zero Time.zero 200]) = some w ∧
      mapIndex (w.deref w.mw.ResponseCounts) "200" = 1 ∧
      mapIndex (w.deref w.mw.TotalResponseCounts) "200" = -9223372036854775808 ∧
      ¬ (mapIndex (w.deref w.mw.ResponseCounts) "200" ≤
          mapIndex (w.deref w.mw.TotalResponseCounts) "200") := by
  obtain ⟨w, h1, -, h3, h4, -⟩ := run_New Time.zero 0
    (List.replicate 9223372036854775807 (Op.EndWithStatus Time.zero Time.zero 200) ++
      [Op.ResetResponseCounts, Op.EndWithStatus Time.zero Time.zero 200])
  have hr : recorded (List.replicate 9223372036854775807
      (Op.EndWithStatus Time.zero Time.zero 200) ++
      [Op.ResetResponseCounts, Op.EndWithStatus Time.zero Time.zero 200]) =
      List.replicate 9223372036854775807 200 ++ [200] := by
    rw [recorded_append, recorded_replicate]; rfl
  have hs : recordedSinceReset [] (List.replicate 9223372036854775807
      (Op.EndWithStatus Time.zero Time.zero 200) ++
      [Op.ResetResponseCounts, Op.EndWithStatus Time.zero Time.zero 200]) = [200] := by
    rw [recordedSinceReset_append]; rfl
  have e3 := h3 (Sprintf_d 200)
  have e4 := h4 (Sprintf_d 200)
  rw [count_recordedKeys, hr, List.count_append, List.count_replicate_self] at e3
  rw [hs] at e4
  rw [Sprintf_d_200] at e3 e4
  have v3 : mapIndex (w.deref w.mw.TotalResponseCounts) "200" = -9223372036854775808 := by
    rw [e3]; rfl
  have v4 : mapIndex (w.deref w.mw.ResponseCounts) "200" = 1 := by
    rw [e4]; rfl
  refine ⟨w, h1, v4, v3, ?_⟩
  rw [v3, v4]
  omega

/-! ## C9 -/

/-- Adding a non-negative duration to a valid time does not lower the total that `Data`
reports for it. -/
theorem Sub_zero_Add_mono (t : Time) (d : Int) (hv : t.Valid) (h0 : 0 ≤ d) (h1 : d ≤ maxDuration) :
    t.Sub Time.zero ≤ (t.Add d).Sub Time.zero := by
  have hd1 : minDuration ≤ d := by unfold minDuration; omega
  rw [Sub_zero t hv, Sub_zero _ (Add_valid t d hv hd1 h1)]
  obtain ⟨e1, e2⟩ := Add_wall t d hv hd1 h1
  obtain ⟨v1, v2, v3, v4, -⟩ := hv
  unfold Time.ns
  rw [e1, e2]
  unfold minInt64 at v1; unfold maxInt64 at v2; unfold maxDuration at h1
  unfold satSec clampDuration minDuration maxDuration minInt64 maxInt64
  split_ifs <;> omega

/-- C9, as amended: in every well-formed state, a call of `ResetResponseCounts`, of `Data`, or
of `EndWithStatus` whose start time is not after its end time (the measured elapsed
duration `end.Sub(start)` is not negative) does not lower the accumulated total response
time that `Data` reports, `TotalResponseTime.Sub(time.Time{})`. -/
theorem C9_total_time_monotone (w : World) (op : Op) (hwf : w.WF)
    (hel : ∀ now start status, op = Op.EndWithStatus now start status → 0 ≤ now.Sub start) :
    ∃ w', step w op = some w' ∧
      w.mw.TotalResponseTime.Sub Time.zero ≤ w'.mw.TotalResponseTime.Sub Time.zero := by
  obtain ⟨w', h1, -, h3, -⟩ := step_view w op hwf
  refine ⟨w', h1, ?_⟩
  have hT : w'.mw.TotalResponseTime = w'.view.TotalResponseTime := rfl
  rw [hT, h3]
  cases op with
  | EndWithStatus now start status =>
    exact Sub_zero_Add_mono _ _ hwf.2.2.2 (hel now start status rfl) (Sub_range now start).2
  | ResetResponseCounts => exact le_refl _
  | Data now => exact le_refl _

/-- A scope of 250ms recorded in a state with 1.9s of accumulated response time. -/
theorem C9_total_time_monotone_witness :
    (World.mk [[], [("200", 4)]]
      ⟨⟨63900000000, 0, none⟩, 1, 0, 1, ⟨1, 900000000, none⟩⟩).WF ∧
    (0 : Int) ≤ (⟨63900000005, 250000000, none⟩ : Time).Sub ⟨63900000005, 0, none⟩ ∧
    ∃ w', step (World.mk [[], [("200", 4)]]
        ⟨⟨63900000000, 0, none⟩, 1, 0, 1, ⟨1, 900000000, none⟩⟩)
        (Op.EndWithStatus ⟨63900000005, 250000000, none⟩ ⟨63900000005, 0, none⟩ 200) = some w' ∧
      (World.mk [[], [("200", 4)]]
        ⟨⟨63900000000, 0, none⟩, 1, 0, 1, ⟨1, 900000000, none⟩⟩).mw.TotalResponseTime.Sub
          Time.zero ≤ w'.mw.TotalResponseTime.Sub Time.zero :=
  ⟨by decide, by decide,
    C9_total_time_monotone _ _ (by decide) (by
      intro now start status h
      cases h
      decide)⟩

/-- C9 fails as stated: `EndWithStatus` with a start time one second after its end time
measures `-1s`, and the accumulated total response time of a fresh recorder goes from
`0` to `-1000000000` nanoseconds; the new `TotalResponseTime` is before the old one. -/
theorem C9_counterexample :
    ∃ w', Stats.EndWithStatus (New ⟨63900000000, 0, none⟩ 1) ⟨63900000005, 0, some 5000000000⟩
        ⟨63900000006, 0, none⟩ 200 = some w' ∧
      (New ⟨63900000000, 0, none⟩ 1).mw.TotalResponseTime.Sub Time.zero = 0 ∧
      w'.mw.TotalResponseTime.Sub Time.zero = -1000000000 ∧
      w'.mw.TotalResponseTime.Sub Time.zero <
        (New ⟨63900000000, 0, none⟩ 1).mw.TotalResponseTime.Sub Time.zero ∧
      w'.mw.TotalResponseTime.Before (New ⟨63900000000, 0, none⟩ 1).mw.TotalResponseTime = true := by
  refine ⟨_, rfl, ?_, ?_, ?_, ?_⟩ <;> decide

/-! ## C10 -/

/-- C10, as amended: in every well-formed state and for every key `k` whose count in
`TotalResponseCounts` is below the largest `int`, a call of `EndWithStatus`,
`ResetResponseCounts` or `Data` leaves `TotalResponseCounts[k]` at least as large as
it was; no call removes a key from `TotalResponseCounts` or re-points the field. -/
theorem C10_total_counts_monotone (w : World) (op : Op) (k : String) (hwf : w.WF)
    (hk : mapIndex (w.deref w.mw.TotalResponseCounts) k < maxInt64) :
    ∃ w', step w op = some w' ∧
      w'.mw.TotalResponseCounts = w.mw.TotalResponseCounts ∧
      mapIndex (w.deref w.mw.TotalResponseCounts) k ≤
        mapIndex (w'.deref w'.mw.TotalResponseCounts) k ∧
      ∀ j, j ∈ mapKeys (w.deref w.mw.TotalResponseCounts) →
        j ∈ mapKeys (w'.deref w'.mw.TotalResponseCounts) := by
  obtain ⟨w', h1, -, h3, h4⟩ := step_view w op hwf
  refine ⟨w', h1, h4, ?_, ?_⟩
  · show mapIndex w.view.TotalResponseCounts k ≤ mapIndex w'.view.TotalResponseCounts k
    have hk' : mapIndex w.view.TotalResponseCounts k < maxInt64 := hk
    rw [h3]
    cases op with
    | EndWithStatus now start status =>
      show _ ≤ mapIndex (mapIncr w.view.TotalResponseCounts (Sprintf_d status)) k
      rw [mapIndex_mapIncr]
      split_ifs
      · unfold maxInt64 at hk'
        unfold wrapInt
        omega
      · exact le_refl _
    | ResetResponseCounts => exact le_refl _
    | Data now => exact le_refl _
  · intro j hj
    show j ∈ mapKeys w'.view.TotalResponseCounts
    have hj' : j ∈ mapKeys w.view.TotalResponseCounts := hj
    rw [h3]
    cases op with
    | EndWithStatus now start status =>
      show j ∈ mapKeys (mapIncr w.view.TotalResponseCounts (Sprintf_d status))
      rw [mem_mapKeys_mapIncr]
      exact Or.inr hj'
    | ResetResponseCounts => exact hj'
    | Data now => exact hj'

/-- A scope with status 200 recorded in a state that has seen four of them. -/
theorem C10_total_counts_monotone_witness :
    (World.mk [[], [("200", 4)]]
      ⟨⟨63900000000, 0, none⟩, 1, 0, 1, ⟨1, 900000000, none⟩⟩).WF ∧
    mapIndex ((World.mk [[], [("200", 4)]]
      ⟨⟨63900000000, 0, none⟩, 1, 0, 1, ⟨1, 900000000, none⟩⟩).deref 1) "200" < maxInt64 ∧
    ∃ w', step (World.mk [[], [("200", 4)]]
        ⟨⟨63900000000, 0, none⟩, 1, 0, 1, ⟨1, 900000000, none⟩⟩)
        (Op.EndWithStatus ⟨63900000005, 250000000, none⟩ ⟨63900000005, 0, none⟩ 200) = some w' ∧
      w'.mw.TotalResponseCounts = 1 ∧
      mapIndex ((World.mk [[], [("200", 4)]]
        ⟨⟨63900000000, 0, none⟩, 1, 0, 1, ⟨1, 900000000, none⟩⟩).deref 1) "200" ≤
        mapIndex (w'.deref w'.mw.TotalResponseCounts) "200" ∧
      ∀ j, j ∈ mapKeys ((World.mk [[], [("200", 4)]]
          ⟨⟨63900000000, 0, none⟩, 1, 0, 1, ⟨1, 900000000, none⟩⟩).deref 1) →
        j ∈ mapKeys (w'.deref w'.mw.TotalResponseCounts) :=
  ⟨by decide, by decide, C10_total_counts_monotone _ _ "200" (by decide) (by decide)⟩

/-- C10 fails as stated: in a state whose `TotalResponseCounts["200"]` is the largest `int`,
`EndWithStatus` with status 200 wraps the count around to `-2^63`, below its old value. -/
theorem C10_counterexample :
    ∃ w', Stats.EndWithStatus (World.mk [[], [("200", 9223372036854775807)]]
        ⟨⟨63900000000, 0, none⟩, 1, 0, 1, Time.zero⟩)
        ⟨63900000002, 0, none⟩ ⟨63900000001, 0, none⟩ 200 = some w' ∧
      mapIndex ((World.mk [[], [("200", 9223372036854775807)]]
        ⟨⟨63900000000, 0, none⟩, 1, 0, 1, Time.zero⟩).deref 1) "200" = 9223372036854775807 ∧
      mapIndex (w'.deref w'.mw.TotalResponseCounts) "200" = -9223372036854775808 ∧
      mapIndex (w'.deref w'.mw.TotalResponseCounts) "200" <
        mapIndex ((World.mk [[], [("200", 9223372036854775807)]]
          ⟨⟨63900000000, 0, none⟩, 1, 0, 1, Time.zero⟩).deref 1) "200" := by
  refine ⟨_, rfl, ?_, ?_, ?_⟩ <;> decide

/-! ## C11 -/

/-- On a well-formed state `EndWithStatus` returns the state in which both maps have the
entry of the status key incremented and every other entry and key as before. -/
theorem EndWithStatus_maps (w : World) (now start : Time) (status : Int) (hwf : w.WF) :
    ∃ w', Stats.EndWithStatus w now start status = some w' ∧ w'.WF ∧
      w'.deref w'.mw.ResponseCounts = mapIncr (w.deref w.mw.ResponseCounts) (Sprintf_d status) ∧
      w'.deref w'.mw.TotalResponseCounts =
        mapIncr (w.deref w.mw.TotalResponseCounts) (Sprintf_d status) ∧
      w'.mw.TotalResponseTime = w.mw.TotalResponseTime.Add (now.Sub start) ∧
      w'.mw.Pid = w.mw.Pid ∧ w'.mw.Uptime = w.mw.Uptime := by
  have he := EndWithStatus_eq w now start status hwf
  obtain ⟨hv, -, -⟩ := EndWithStatus_view w _ now start status hwf he
  refine ⟨_, he, EndWithStatus_WF w _ now start status hwf he, ?_, ?_, rfl, rfl, rfl⟩
  · exact congrArg View.ResponseCounts hv
  · exact congrArg View.TotalResponseCounts hv

/-- C11, as amended: in every well-formed state and for every integer status, `EndWithStatus`
does not fail; with `k` the decimal string of the status, it raises `ResponseCounts[k]` and
`TotalResponseCounts[k]` by exactly 1 provided each is below the largest `int`, leaves the
count of every other key in both maps as it was and adds no other key; distinct status
integers have distinct keys. -/
theorem C11_any_status (w : World) (now start : Time) (status : Int) (hwf : w.WF)
    (hR1 : minInt64 ≤ mapIndex (w.deref w.mw.ResponseCounts) (Sprintf_d status))
    (hR2 : mapIndex (w.deref w.mw.ResponseCounts) (Sprintf_d status) < maxInt64)
    (hT1 : minInt64 ≤ mapIndex (w.deref w.mw.TotalResponseCounts) (Sprintf_d status))
    (hT2 : mapIndex (w.deref w.mw.TotalResponseCounts) (Sprintf_d status) < maxInt64) :
    ∃ w', Stats.EndWithStatus w now start status = some w' ∧
      mapIndex (w'.deref w'.mw.ResponseCounts) (Sprintf_d status) =
        mapIndex (w.deref w.mw.ResponseCounts) (Sprintf_d status) + 1 ∧
      mapIndex (w'.deref w'.mw.TotalResponseCounts) (Sprintf_d status) =
        mapIndex (w.deref w.mw.TotalResponseCounts) (Sprintf_d status) + 1 ∧
      (∀ j, j ≠ Sprintf_d status →
        mapIndex (w'.deref w'.mw.ResponseCounts) j = mapIndex (w.deref w.mw.ResponseCounts) j ∧
        mapIndex (w'.deref w'.mw.TotalResponseCounts) j =
          mapIndex (w.deref w.mw.TotalResponseCounts) j ∧
        (j ∈ mapKeys (w'.deref w'.mw.ResponseCounts) ↔ j ∈ mapKeys (w.deref w.mw.ResponseCounts)) ∧
        (j ∈ mapKeys (w'.deref w'.mw.TotalResponseCounts) ↔
          j ∈ mapKeys (w.deref w.mw.TotalResponseCounts))) ∧
      ∀ other : Int, other ≠ status → Sprintf_d other ≠ Sprintf_d status := by
  obtain ⟨w', he, -, hR, hT, -⟩ := EndWithStatus_maps w now start status hwf
  unfold minInt64 at hR1 hT1
  unfold maxInt64 at hR2 hT2
  refine ⟨w', he, ?_, ?_, ?_, ?_⟩
  · rw [hR, mapIndex_mapIncr, if_pos rfl]
    exact wrapInt_eq_self (by unfold minInt64; omega) (by unfold maxInt64; omega)
  · rw [hT, mapIndex_mapIncr, if_pos rfl]
    exact wrapInt_eq_self (by unfold minInt64; omega) (by unfold maxInt64; omega)
  · intro j hj
    rw [hR, hT, mapIndex_mapIncr, mapIndex_mapIncr, if_neg (Ne.symm hj), if_neg (Ne.symm hj),
      mem_mapKeys_mapIncr, mem_mapKeys_mapIncr]
    refine ⟨rfl, rfl, ?_, ?_⟩ <;> simp [hj]
  · intro other ho heq
    exact ho (Sprintf_d_injective heq)

/-- A scope with the negative status `-7` recorded in a state that has seen statuses
`200` and `-7`. -/
theorem C11_any_status_witness :
    (World.mk [[("200", 1)], [("200", 4), ("-7", 2)]]
      ⟨⟨63900000000, 0, none⟩, 1, 0, 1, ⟨1, 900000000, none⟩⟩).WF ∧
    ∃ w', Stats.EndWithStatus (World.mk [[("200", 1)], [("200", 4), ("-7", 2)]]
        ⟨⟨63900000000, 0, none⟩, 1, 0, 1, ⟨1, 900000000, none⟩⟩)
        ⟨63900000005, 250000000, none⟩ ⟨63900000005, 0, none⟩ (-7) = some w' ∧
      mapIndex (w'.deref w'.mw.ResponseCounts) (Sprintf_d (-7)) =
        mapIndex ((World.mk [[("200", 1)], [("200", 4), ("-7", 2)]]
          ⟨⟨63900000000, 0, none⟩, 1, 0, 1, ⟨1, 900000000, none⟩⟩).deref 0) (Sprintf_d (-7)) + 1 ∧
      mapIndex (w'.deref w'.mw.TotalResponseCounts) (Sprintf_d (-7)) =
        mapIndex ((World.mk [[("200", 1)], [("200", 4), ("-7", 2)]]
          ⟨⟨63900000000, 0, none⟩, 1, 0, 1, ⟨1, 900000000, none⟩⟩).deref 1) (Sprintf_d (-7)) + 1 ∧
      (∀ j, j ≠ Sprintf_d (-7) →
        mapIndex (w'.deref w'.mw.ResponseCounts) j =
          mapIndex ((World.mk [[("200", 1)], [("200", 4), ("-7", 2)]]
            ⟨⟨63900000000, 0, none⟩, 1, 0, 1, ⟨1, 900000000, none⟩⟩).deref 0) j ∧
        mapIndex (w'.deref w'.mw.TotalResponseCounts) j =
          mapIndex ((World.mk [[("200", 1)], [("200", 4), ("-7", 2)]]
            ⟨⟨63900000000, 0, none⟩, 1, 0, 1, ⟨1, 900000000, none⟩⟩).deref 1) j ∧
        (j ∈ mapKeys (w'.deref w'.mw.ResponseCounts) ↔
          j ∈ mapKeys ((World.mk [[("200", 1)], [("200", 4), ("-7", 2)]]
            ⟨⟨63900000000, 0, none⟩, 1, 0, 1, ⟨1, 900000000, none⟩⟩).deref 0)) ∧
        (j ∈ mapKeys (w'.deref w'.mw.TotalResponseCounts) ↔
          j ∈ mapKeys ((World.mk [[("200", 1)], [("200", 4), ("-7", 2)]]
            ⟨⟨63900000000, 0, none⟩, 1, 0, 1, ⟨1, 900000000, none⟩⟩).deref 1))) ∧
      ∀ other : Int, other ≠ -7 → Sprintf_d other ≠ Sprintf_d (-7) :=
  ⟨by decide,
    C11_any_status (World.mk [[("200", 1)], [("200", 4), ("-7", 2)]]
      ⟨⟨63900000000, 0, none⟩, 1, 0, 1, ⟨1, 900000000, none⟩⟩)
      ⟨63900000005, 250000000, none⟩ ⟨63900000005, 0, none⟩ (-7)
      (by decide) (by decide) (by decide) (by decide) (by decide)⟩

/-- C11 fails as stated: in a state whose two counts of status `0` are the largest `int`,
`EndWithStatus` with status `0` wraps both around to `-2^63` instead of raising them by 1. -/
theorem C11_counterexample :
    ∃ w', Stats.EndWithStatus (World.mk [[("0", 9223372036854775807)], [("0", 9223372036854775807)]]
        ⟨⟨63900000000, 0, none⟩, 1, 0, 1, Time.zero⟩)
        ⟨63900000002, 0, none⟩ ⟨63900000001, 0, none⟩ 0 = some w' ∧
      Sprintf_d 0 = "0" ∧
      mapIndex ((World.mk [[("0", 9223372036854775807)], [("0", 9223372036854775807)]]
        ⟨⟨63900000000, 0, none⟩, 1, 0, 1, Time.zero⟩).deref 0) "0" = 9223372036854775807 ∧
      mapIndex ((World.mk [[("0", 9223372036854775807)], [("0", 9223372036854775807)]]
        ⟨⟨63900000000, 0, none⟩, 1, 0, 1, Time.zero⟩).deref 1) "0" = 9223372036854775807 ∧
      mapIndex (w'.deref w'.mw.ResponseCounts) "0" = -9223372036854775808 ∧
      mapIndex (w'.deref w'.mw.TotalResponseCounts) "0" = -9223372036854775808 ∧
      mapIndex (w'.deref w'.mw.TotalResponseCounts) "0" ≠
        mapIndex ((World.mk [[("0", 9223372036854775807)], [("0", 9223372036854775807)]]
          ⟨⟨63900000000, 0, none⟩, 1, 0, 1, Time.zero⟩).deref 1) "0" + 1 := by
  refine ⟨_, rfl, ?_, ?_, ?_, ?_, ?_, ?_⟩ <;> decide

/-! ## C12 -/

theorem mapSumFrom_exact (c : Int) (m : GoMap) :
    mapSumFrom (wrapInt c) m = wrapInt (c + mapValuesSum m) := by
  induction m generalizing c with
  | nil => simp [mapSumFrom, mapValuesSum]
  | cons e rest ih =>
    obtain ⟨k, v⟩ := e
    have e1 : wrapInt (wrapInt c + v) = wrapInt (c + v) := wrapInt_wrapInt_add c v
    simp only [mapSumFrom, e1, ih]
    congr 1
    simp only [mapValuesSum, List.map_cons, List.sum_cons]
    ring

/-- The loop of `Data` computes the sum of the values, wrapped to an `int`. -/
theorem mapSum_eq (m : GoMap) : mapSum m = wrapInt (mapValuesSum m) := by
  have := mapSumFrom_exact 0 m
  rw [wrapInt_zero, zero_add] at this
  exact this

/-- The loop of `Data` gives the same count in whatever order the map is ranged over. -/
theorem mapSum_perm {m1 m2 : GoMap} (h : m1.Perm m2) : mapSum m1 = mapSum m2 := by
  rw [mapSum_eq, mapSum_eq]
  congr 1
  exact (h.map Prod.snd).sum_eq

/-- C12, as amended: in every state in which the sum of the values of `ResponseCounts` and
the sum of the values of `TotalResponseCounts` fit an `int`, the snapshot that `Data`
returns has `Count` equal to the first sum and `TotalCount` equal to the second, in
whatever order the loops range over the maps. -/
theorem C12_counts_are_sums (w : World) (now : Time)
    (hR1 : minInt64 ≤ mapValuesSum (w.deref w.mw.ResponseCounts))
    (hR2 : mapValuesSum (w.deref w.mw.ResponseCounts) ≤ maxInt64)
    (hT1 : minInt64 ≤ mapValuesSum (w.deref w.mw.TotalResponseCounts))
    (hT2 : mapValuesSum (w.deref w.mw.TotalResponseCounts) ≤ maxInt64) :
    ∃ d, Stats.Data w now = some d ∧
      d.Count = mapValuesSum (w.deref w.mw.ResponseCounts) ∧
      d.TotalCount = mapValuesSum (w.deref w.mw.TotalResponseCounts) ∧
      (∀ m : GoMap, m.Perm (w.deref w.mw.ResponseCounts) → mapSum m = d.Count) ∧
      (∀ m : GoMap, m.Perm (w.deref w.mw.TotalResponseCounts) → mapSum m = d.TotalCount) := by
  obtain ⟨d, hd, -, -, -, hC, hTC, -⟩ := Data_eq w now
  refine ⟨d, hd, ?_, ?_, ?_, ?_⟩
  · rw [hC, mapSum_eq]; exact wrapInt_eq_self hR1 hR2
  · rw [hTC, mapSum_eq]; exact wrapInt_eq_self hT1 hT2
  · intro m hm; rw [hC]; exact mapSum_perm hm
  · intro m hm; rw [hTC]; exact mapSum_perm hm

/-- A state of C12 with two keys in the window and three in the total map. -/
theorem C12_counts_are_sums_witness :
    minInt64 ≤ mapValuesSum ((World.mk [[("200", 2), ("404", 1)], [("200", 7), ("404", 2), ("500", 1)]]
      ⟨⟨63900000000, 0, none⟩, 1, 0, 1, ⟨3, 0, none⟩⟩).deref 0) ∧
    mapValuesSum ((World.mk [[("200", 2), ("404", 1)], [("200", 7), ("404", 2), ("500", 1)]]
      ⟨⟨63900000000, 0, none⟩, 1, 0, 1, ⟨3, 0, none⟩⟩).deref 1) ≤ maxInt64 ∧
    ∃ d, Stats.Data (World.mk [[("200", 2), ("404", 1)], [("200", 7), ("404", 2), ("500", 1)]]
        ⟨⟨63900000000, 0, none⟩, 1, 0, 1, ⟨3, 0, none⟩⟩) ⟨63900000009, 0, none⟩ = some d ∧
      d.Count = 3 ∧ d.TotalCount = 10 ∧
      (∀ m : GoMap, m.Perm [("200", 2), ("404", 1)] → mapSum m = d.Count) ∧
      (∀ m : GoMap, m.Perm [("200", 7), ("404", 2), ("500", 1)] → mapSum m = d.TotalCount) :=
  ⟨by decide, by decide,
    C12_counts_are_sums (World.mk [[("200", 2), ("404", 1)], [("200", 7), ("404", 2), ("500", 1)]]
      ⟨⟨63900000000, 0, none⟩, 1, 0, 1, ⟨3, 0, none⟩⟩) ⟨63900000009, 0, none⟩
      (by decide) (by decide) (by decide) (by decide)⟩

/-- C12 fails as stated: with `TotalResponseCounts` holding the largest `int` under `"200"` and
1 under `"404"`, the values sum to `2^63` and the loop of `Data` wraps `TotalCount` around to
`-2^63`. -/
theorem C12_counterexample :
    ∃ d, Stats.Data (World.mk [[], [("200", 9223372036854775807), ("404", 1)]]
        ⟨⟨63900000000, 0, none⟩, 1, 0, 1, Time.zero⟩) ⟨63900000002, 0, none⟩ = some d ∧
      mapValuesSum ((World.mk [[], [("200", 9223372036854775807), ("404", 1)]]
        ⟨⟨63900000000, 0, none⟩, 1, 0, 1, Time.zero⟩).deref 1) = 9223372036854775808 ∧
      d.TotalCount = -9223372036854775808 ∧
      d.TotalCount ≠ mapValuesSum ((World.mk [[], [("200", 9223372036854775807), ("404", 1)]]
        ⟨⟨63900000000, 0, none⟩, 1, 0, 1, Time.zero⟩).deref 1) := by
  refine ⟨_, rfl, ?_, ?_, ?_⟩ <;> decide

/-! ## C16 -/

/-- C16: a freshly constructed recorder holds the construction time and the process id, two
empty maps and the zero time, and its snapshot reports `Count == 0`, `TotalCount == 0`
and a total response time of zero; after the reset that the background task performs at
start-up the contents and the snapshot are the same. -/
theorem C16_fresh (now : Time) (pid : Int) (now' : Time) :
    (New now pid).mw.Uptime = now ∧ (New now pid).mw.Pid = pid ∧
    (New now pid).deref (New now pid).mw.ResponseCounts = [] ∧
    (New now pid).deref (New now pid).mw.TotalResponseCounts = [] ∧
    (New now pid).mw.TotalResponseTime = Time.zero ∧
    (∃ d, Stats.Data (New now pid) now' = some d ∧ d.Count = 0 ∧ d.TotalCount = 0 ∧
      d.TotalResponseTime = 0) ∧
    (Stats.ResetResponseCounts (New now pid)).view = (New now pid).view ∧
    (∃ d, Stats.Data (Stats.ResetResponseCounts (New now pid)) now' = some d ∧ d.Count = 0 ∧
      d.TotalCount = 0 ∧ d.TotalResponseTime = 0) := by
  have hz : Time.zero.Sub Time.zero = 0 := by decide
  refine ⟨rfl, rfl, rfl, rfl, rfl, ?_, rfl, ?_⟩
  · obtain ⟨d, hd, -, -, -, hC, hTC, hT, -⟩ := Data_eq (New now pid) now'
    exact ⟨d, hd, by rw [hC]; rfl, by rw [hTC]; rfl, by rw [hT]; exact hz⟩
  · obtain ⟨d, hd, -, -, -, hC, hTC, hT, -⟩ := Data_eq (Stats.ResetResponseCounts (New now pid)) now'
    exact ⟨d, hd, by rw [hC]; rfl, by rw [hTC]; rfl, by rw [hT]; exact hz⟩

/-! ## C19 -/

/-- C19: in every state a call of `Data` returns a snapshot and leaves the state as it was,
and two snapshots of the same state, taken at any two clock readings, have the same
`Pid`, the same maps with the same contents, and the same `Count`, `TotalCount`,
total response time and average response time. -/
theorem C19_data_read_only (w : World) (now1 now2 : Time) :
    step w (Op.Data now1) = some w ∧
    run w [Op.Data now1, Op.Data now2] = some w ∧
    ∃ d1 d2, Stats.Data w now1 = some d1 ∧ Stats.Data w now2 = some d2 ∧
      d1.Pid = d2.Pid ∧
      d1.StatusCodeCount = d2.StatusCodeCount ∧
      d1.TotalStatusCodeCount = d2.TotalStatusCodeCount ∧
      w.deref d1.StatusCodeCount = w.deref d2.StatusCodeCount ∧
      w.deref d1.TotalStatusCodeCount = w.deref d2.TotalStatusCodeCount ∧
      d1.Count = d2.Count ∧ d1.TotalCount = d2.TotalCount ∧
      d1.TotalResponseTime = d2.TotalResponseTime ∧
      d1.AverageResponseTime = d2.AverageResponseTime := by
  obtain ⟨d1, h1, p1, s1, t1, c1, tc1, tr1, a1⟩ := Data_eq w now1
  obtain ⟨d2, h2, p2, s2, t2, c2, tc2, tr2, a2⟩ := Data_eq w now2
  have hs1 : step w (Op.Data now1) = some w := by simp only [step, h1, Option.map_some']
  have hs2 : step w (Op.Data now2) = some w := by simp only [step, h2, Option.map_some']
  refine ⟨hs1, ?_, d1, d2, h1, h2, ?_, ?_, ?_, ?_, ?_, ?_, ?_, ?_, ?_⟩
  · simp only [run, hs1, hs2, Option.some_bind]
  · rw [p1, p2]
  · rw [s1, s2]
  · rw [t1, t2]
  · rw [s1, s2]
  · rw [t1, t2]
  · rw [c1, c2]
  · rw [tc1, tc2]
  · rw [tr1, tr2]
  · rw [a1, a2, tc1, tc2, tr1, tr2]

/-! ## C13 -/

/-- Both wrappers record the status that the recording response writer shows after the
wrapped handler has run on a writer made with status 200, with the elapsed time between
the two clock readings. -/
theorem Handler_eq (w : World) (h : HandlerFunc) (nowBegin nowEnd : Time) :
    Stats.Handler w h nowBegin nowEnd =
      Stats.EndWithStatus w nowEnd nowBegin (h (NewRecorderResponseWriter 200)).Status ∧
    Stats.ServeHTTP w h nowBegin nowEnd =
      Stats.EndWithStatus w nowEnd nowBegin (h (NewRecorderResponseWriter 200)).Status :=
  ⟨rfl, rfl⟩

/-- C13, as amended: in every well-formed state, for every handler that sets no status on
the response writer it is given, one invocation through `Handler`, and likewise through
the Negroni `ServeHTTP`, does not fail, raises `ResponseCounts["200"]` and
`TotalResponseCounts["200"]` by 1 provided each is below the largest `int`, and changes
the count of no other key and adds no other key. -/
theorem C13_default_status (w : World) (h : HandlerFunc) (nowBegin nowEnd : Time) (hwf : w.WF)
    (hns : ∀ r : RecorderResponseWriter, (h r).Status = r.Status)
    (hR1 : minInt64 ≤ mapIndex (w.deref w.mw.ResponseCounts) "200")
    (hR2 : mapIndex (w.deref w.mw.ResponseCounts) "200" < maxInt64)
    (hT1 : minInt64 ≤ mapIndex (w.deref w.mw.TotalResponseCounts) "200")
    (hT2 : mapIndex (w.deref w.mw.TotalResponseCounts) "200" < maxInt64) :
    ∃ w', Stats.Handler w h nowBegin nowEnd = some w' ∧
      Stats.ServeHTTP w h nowBegin nowEnd = some w' ∧
      mapIndex (w'.deref w'.mw.ResponseCounts) "200" =
        mapIndex (w.deref w.mw.ResponseCounts) "200" + 1 ∧
      mapIndex (w'.deref w'.mw.TotalResponseCounts) "200" =
        mapIndex (w.deref w.mw.TotalResponseCounts) "200" + 1 ∧
      ∀ j, j ≠ "200" →
        mapIndex (w'.deref w'.mw.ResponseCounts) j = mapIndex (w.deref w.mw.ResponseCounts) j ∧
        mapIndex (w'.deref w'.mw.TotalResponseCounts) j =
          mapIndex (w.deref w.mw.TotalResponseCounts) j ∧
        (j ∈ mapKeys (w'.deref w'.mw.ResponseCounts) ↔ j ∈ mapKeys (w.deref w.mw.ResponseCounts)) ∧
        (j ∈ mapKeys (w'.deref w'.mw.TotalResponseCounts) ↔
          j ∈ mapKeys (w.deref w.mw.TotalResponseCounts)) := by
  have hst : (h (NewRecorderResponseWriter 200)).Status = 200 := by rw [hns]; rfl
  obtain ⟨e1, e2⟩ := Handler_eq w h nowBegin nowEnd
  rw [hst] at e1 e2
  obtain ⟨w', he, -, hR, hT, -⟩ := EndWithStatus_maps w nowEnd nowBegin 200 hwf
  rw [Sprintf_d_200] at hR hT
  unfold minInt64 at hR1 hT1
  unfold maxInt64 at hR2 hT2
  refine ⟨w', by rw [e1, he], by rw [e2, he], ?_, ?_, ?_⟩
  · rw [hR, mapIndex_mapIncr, if_pos rfl]
    exact wrapInt_eq_self (by unfold minInt64; omega) (by unfold maxInt64; omega)
  · rw [hT, mapIndex_mapIncr, if_pos rfl]
    exact wrapInt_eq_self (by unfold minInt64; omega) (by unfold maxInt64; omega)
  · intro j hj
    rw [hR, hT, mapIndex_mapIncr, mapIndex_mapIncr, if_neg (Ne.symm hj), if_neg (Ne.symm hj),
      mem_mapKeys_mapIncr, mem_mapKeys_mapIncr]
    refine ⟨rfl, rfl, ?_, ?_⟩ <;> simp [hj]

/-- A handler that leaves the response writer alone, in a state that has seen 200s and 404s. -/
theorem C13_default_status_witness :
    (World.mk [[("404", 1)], [("200", 4), ("404", 2)]]
      ⟨⟨63900000000, 0, none⟩, 1, 0, 1, ⟨1, 900000000, none⟩⟩).WF ∧
    (∀ r : RecorderResponseWriter, ((fun x => x) r : RecorderResponseWriter).Status = r.Status) ∧
    ∃ w', Stats.Handler (World.mk [[("404", 1)], [("200", 4), ("404", 2)]]
        ⟨⟨63900000000, 0, none⟩, 1, 0, 1, ⟨1, 900000000, none⟩⟩) (fun x => x)
        ⟨63900000005, 0, none⟩ ⟨63900000005, 250000000, none⟩ = some w' ∧
      Stats.ServeHTTP (World.mk [[("404", 1)], [("200", 4), ("404", 2)]]
        ⟨⟨63900000000, 0, none⟩, 1, 0, 1, ⟨1, 900000000, none⟩⟩) (fun x => x)
        ⟨63900000005, 0, none⟩ ⟨63900000005, 250000000, none⟩ = some w' ∧
      mapIndex (w'.deref w'.mw.ResponseCounts) "200" =
        mapIndex ((World.mk [[("404", 1)], [("200", 4), ("404", 2)]]
          ⟨⟨63900000000, 0, none⟩, 1, 0, 1, ⟨1, 900000000, none⟩⟩).deref 0) "200" + 1 ∧
      mapIndex (w'.deref w'.mw.TotalResponseCounts) "200" =
        mapIndex ((World.mk [[("404", 1)], [("200", 4), ("404", 2)]]
          ⟨⟨63900000000, 0, none⟩, 1, 0, 1, ⟨1, 900000000, none⟩⟩).deref 1) "200" + 1 ∧
      ∀ j, j ≠ "200" →
        mapIndex (w'.deref w'.mw.ResponseCounts) j =
          mapIndex ((World.mk [[("404", 1)], [("200", 4), ("404", 2)]]
            ⟨⟨63900000000, 0, none⟩, 1, 0, 1, ⟨1, 900000000, none⟩⟩).deref 0) j ∧
        mapIndex (w'.deref w'.mw.TotalResponseCounts) j =
          mapIndex ((World.mk [[("404", 1)], [("200", 4), ("404", 2)]]
            ⟨⟨63900000000, 0, none⟩, 1, 0, 1, ⟨1, 900000000, none⟩⟩).deref 1) j ∧
        (j ∈ mapKeys (w'.deref w'.mw.ResponseCounts) ↔
          j ∈ mapKeys ((World.mk [[("404", 1)], [("200", 4), ("404", 2)]]
            ⟨⟨63900000000, 0, none⟩, 1, 0, 1, ⟨1, 900000000, none⟩⟩).deref 0)) ∧
        (j ∈ mapKeys (w'.deref w'.mw.TotalResponseCounts) ↔
          j ∈ mapKeys ((World.mk [[("404", 1)], [("200", 4), ("404", 2)]]
            ⟨⟨63900000000, 0, none⟩, 1, 0, 1, ⟨1, 900000000, none⟩⟩).deref 1)) :=
  ⟨by decide, fun _ => rfl,
    C13_default_status (World.mk [[("404", 1)], [("200", 4), ("404", 2)]]
      ⟨⟨63900000000, 0, none⟩, 1, 0, 1, ⟨1, 900000000, none⟩⟩) (fun x => x)
      ⟨63900000005, 0, none⟩ ⟨63900000005, 250000000, none⟩
      (by decide) (fun _ => rfl) (by decide) (by decide) (by decide) (by decide)⟩

/-- C13 fails as stated: in a state whose `TotalResponseCounts["200"]` is the largest `int`,
one invocation of a handler that sets no status wraps that count around to `-2^63`
instead of raising it by 1. -/
theorem C13_counterexample :
    ∃ w', Stats.Handler (World.mk [[], [("200", 9223372036854775807)]]
        ⟨⟨63900000000, 0, none⟩, 1, 0, 1, Time.zero⟩) (fun x => x)
        ⟨63900000001, 0, none⟩ ⟨63900000002, 0, none⟩ = some w' ∧
      mapIndex ((World.mk [[], [("200", 9223372036854775807)]]
        ⟨⟨63900000000, 0, none⟩, 1, 0, 1, Time.zero⟩).deref 1) "200" = 9223372036854775807 ∧
      mapIndex (w'.deref w'.mw.TotalResponseCounts) "200" = -9223372036854775808 ∧
      mapIndex (w'.deref w'.mw.TotalResponseCounts) "200" ≠
        mapIndex ((World.mk [[], [("200", 9223372036854775807)]]
          ⟨⟨63900000000, 0, none⟩, 1, 0, 1, Time.zero⟩).deref 1) "200" + 1 := by
  refine ⟨_, rfl, ?_, ?_, ?_⟩ <;> decide

/-! ## C14 -/

/-- C14, as amended: one invocation through `Handler` runs the wrapped handler once, on a
recording response writer made with status 200, and then records one scope through
`EndWithStatus` with the status that this writer shows after the handler has returned;
the Negroni `ServeHTTP` with `next` the same handler has the same effect; in a
well-formed state whose total count is below the largest `int` the invocation does not
fail and raises the total count of the snapshot by exactly 1. -/
theorem C14_handler_records_once (w : World) (h : HandlerFunc) (nowBegin nowEnd now now' : Time)
    (hwf : w.WF) (hsum : mapSum (w.deref w.mw.TotalResponseCounts) < maxInt64) :
    Stats.Handler w h nowBegin nowEnd =
      Stats.EndWithStatus w nowEnd nowBegin (h (NewRecorderResponseWriter 200)).Status ∧
    Stats.ServeHTTP w h nowBegin nowEnd = Stats.Handler w h nowBegin nowEnd ∧
    ∃ w' d d', Stats.Handler w h nowBegin nowEnd = some w' ∧
      Stats.Data w now = some d ∧ Stats.Data w' now' = some d' ∧
      d'.TotalCount = d.TotalCount + 1 := by
  refine ⟨rfl, rfl, ?_⟩
  obtain ⟨w', he, -, -, hT, -⟩ :=
    EndWithStatus_maps w nowEnd nowBegin (h (NewRecorderResponseWriter 200)).Status hwf
  obtain ⟨d, hd, -, -, -, -, hTC, -⟩ := Data_eq w now
  obtain ⟨d', hd', -, -, -, -, hTC', -⟩ := Data_eq w' now'
  refine ⟨w', d, d', he, hd, hd', ?_⟩
  rw [hTC', hTC, hT, mapSum_mapIncr]
  have hr := mapSum_range (w.deref w.mw.TotalResponseCounts)
  unfold maxInt64 at hsum
  exact wrapInt_eq_self (by unfold minInt64 at *; omega) (by unfold maxInt64; omega)

/-- A handler that sets status 503 and then 404, in a state with six recorded scopes. -/
theorem C14_handler_records_once_witness :
    (World.mk [[("404", 1)], [("200", 4), ("404", 2)]]
      ⟨⟨63900000000, 0, none⟩, 1, 0, 1, ⟨1, 900000000, none⟩⟩).WF ∧
    mapSum ((World.mk [[("404", 1)], [("200", 4), ("404", 2)]]
      ⟨⟨63900000000, 0, none⟩, 1, 0, 1, ⟨1, 900000000, none⟩⟩).deref 1) < maxInt64 ∧
    Stats.Handler (World.mk [[("404", 1)], [("200", 4), ("404", 2)]]
        ⟨⟨63900000000, 0, none⟩, 1, 0, 1, ⟨1, 900000000, none⟩⟩)
        (fun r => (r.WriteHeader 503).WriteHeader 404)
        ⟨63900000005, 0, none⟩ ⟨63900000005, 250000000, none⟩ =
      Stats.EndWithStatus (World.mk [[("404", 1)], [("200", 4), ("404", 2)]]
        ⟨⟨63900000000, 0, none⟩, 1, 0, 1, ⟨1, 900000000, none⟩⟩)
        ⟨63900000005, 250000000, none⟩ ⟨63900000005, 0, none⟩ 404 ∧
    Stats.ServeHTTP (World.mk [[("404", 1)], [("200", 4), ("404", 2)]]
        ⟨⟨63900000000, 0, none⟩, 1, 0, 1, ⟨1, 900000000, none⟩⟩)
        (fun r => (r.WriteHeader 503).WriteHeader 404)
        ⟨63900000005, 0, none⟩ ⟨63900000005, 250000000, none⟩ =
      Stats.Handler (World.mk [[("404", 1)], [("200", 4), ("404", 2)]]
        ⟨⟨63900000000, 0, none⟩, 1, 0, 1, ⟨1, 900000000, none⟩⟩)
        (fun r => (r.WriteHeader 503).WriteHeader 404)
        ⟨63900000005, 0, none⟩ ⟨63900000005, 250000000, none⟩ ∧
    ∃ w' d d', Stats.Handler (World.mk [[("404", 1)], [("200", 4), ("404", 2)]]
        ⟨⟨63900000000, 0, none⟩, 1, 0, 1, ⟨1, 900000000, none⟩⟩)
        (fun r => (r.WriteHeader 503).WriteHeader 404)
        ⟨63900000005, 0, none⟩ ⟨63900000005, 250000000, none⟩ = some w' ∧
      Stats.Data (World.mk [[("404", 1)], [("200", 4), ("404", 2)]]
        ⟨⟨63900000000, 0, none⟩, 1, 0, 1, ⟨1, 900000000, none⟩⟩) ⟨63900000004, 0, none⟩ = some d ∧
      Stats.Data w' ⟨63900000006, 0, none⟩ = some d' ∧
      d'.TotalCount = d.TotalCount + 1 :=
  ⟨by decide, by decide,
    C14_handler_records_once (World.mk [[("404", 1)], [("200", 4), ("404", 2)]]
      ⟨⟨63900000000, 0, none⟩, 1, 0, 1, ⟨1, 900000000, none⟩⟩)
      (fun r => (r.WriteHeader 503).WriteHeader 404)
      ⟨63900000005, 0, none⟩ ⟨63900000005, 250000000, none⟩
      ⟨63900000004, 0, none⟩ ⟨63900000006, 0, none⟩ (by decide) (by decide)⟩

/-- C14 fails as stated: in a state whose total count is the largest `int`, one invocation
of a handler that sets status 404 leaves the total count of the snapshot at `-2^63`, not
at the old total count plus 1. -/
theorem C14_counterexample :
    ∃ w' d d', Stats.Handler (World.mk [[], [("200", 9223372036854775807)]]
        ⟨⟨63900000000, 0, none⟩, 1, 0, 1, Time.zero⟩) (fun r => r.WriteHeader 404)
        ⟨63900000001, 0, none⟩ ⟨63900000002, 0, none⟩ = some w' ∧
      Stats.Data (World.mk [[], [("200", 9223372036854775807)]]
        ⟨⟨63900000000, 0, none⟩, 1, 0, 1, Time.zero⟩) ⟨63900000000, 0, none⟩ = some d ∧
      Stats.Data w' ⟨63900000003, 0, none⟩ = some d' ∧
      d.TotalCount = 9223372036854775807 ∧
      d'.TotalCount = -9223372036854775808 ∧
      d'.TotalCount ≠ d.TotalCount + 1 := by
  refine ⟨_, _, _, rfl, rfl, rfl, ?_, ?_, ?_⟩ <;> decide

/-! ## C18 -/

theorem totalsRepresentable_of_nonneg (ds : List Int) (acc : Int) (h0 : 0 ≤ acc)
    (hnn : ∀ d ∈ ds, 0 ≤ d) (hsum : acc + ds.sum ≤ maxDuration) : totalsRepresentable acc ds := by
  induction ds generalizing acc with
  | nil => trivial
  | cons d ds ih =>
    have hd := hnn d (List.mem_cons_self _ _)
    have hrest : ∀ x ∈ ds, 0 ≤ x := fun x hx => hnn x (List.mem_cons_of_mem _ hx)
    have hs : 0 ≤ ds.sum := List.sum_nonneg hrest
    rw [List.sum_cons] at hsum
    unfold maxDuration at hsum
    refine ⟨?_, ?_, ih (acc + d) (by omega) hrest (by unfold maxDuration; omega)⟩
    · unfold minInt64; omega
    · unfold maxInt64; omega

theorem sum_bounds (ds : List Int) (lo hi : Int) (hb : ∀ d ∈ ds, lo ≤ d ∧ d ≤ hi) :
    lo * (ds.length : Nat) ≤ ds.sum ∧ ds.sum ≤ hi * (ds.length : Nat) := by
  induction ds with
  | nil => simp
  | cons d ds ih =>
    obtain ⟨h1, h2⟩ := hb d (List.mem_cons_self _ _)
    obtain ⟨i1, i2⟩ := ih (fun x hx => hb x (List.mem_cons_of_mem _ hx))
    simp only [List.sum_cons, List.length_cons, Nat.cast_add, Nat.cast_one]
    constructor <;> nlinarith

/-- C18, as amended: after any run on a fresh recorder that records at least one scope and
at most `2^63 - 1` scopes, with elapsed durations that are all non-negative and whose sum
fits a `time.Duration`, the average response time that `Data` reports lies between
every lower bound `lo` and every upper bound `hi` of the recorded durations, the smallest
and the largest of them in particular, and
`average * TotalCount <= total < (average + 1) * TotalCount`. -/
theorem C18_average_bounds (now : Time) (pid : Int) (ops : List Op) (now' : Time) (lo hi : Int)
    (hne : elapsed ops ≠ [])
    (hnn : ∀ d ∈ elapsed ops, 0 ≤ d)
    (hb : ∀ d ∈ elapsed ops, lo ≤ d ∧ d ≤ hi)
    (hsum : (elapsed ops).sum ≤ maxDuration)
    (hN : ((recorded ops).length : Int) ≤ maxInt64) :
    ∃ w d, run (New now pid) ops = some w ∧ Stats.Data w now' = some d ∧
      d.TotalCount = (recorded ops).length ∧
      d.TotalResponseTime = (elapsed ops).sum ∧
      lo ≤ d.AverageResponseTime ∧ d.AverageResponseTime ≤ hi ∧
      d.AverageResponseTime * d.TotalCount ≤ d.TotalResponseTime ∧
      d.TotalResponseTime < (d.AverageResponseTime + 1) * d.TotalCount := by
  obtain ⟨w, h1, -, -, -, h5, -, -, -, h9⟩ := run_New now pid ops
  obtain ⟨d, hd, -, -, -, -, hTC, hT, hA⟩ := Data_eq w now'
  have hz : Time.zero.Valid := by decide
  have hns : Time.zero.ns = 0 := rfl
  have hs0 : 0 ≤ (elapsed ops).sum := List.sum_nonneg hnn
  have hrep : totalsRepresentable 0 (elapsed ops) :=
    totalsRepresentable_of_nonneg _ 0 (le_refl _) hnn (by rw [zero_add]; exact hsum)
  obtain ⟨e1, e2⟩ := foldl_Add_ns (elapsed ops) Time.zero hz (elapsed_range ops) (by rw [hns]; exact hrep)
  have htot : d.TotalResponseTime = (elapsed ops).sum := by
    rw [hT, h9, Sub_zero _ e2, e1, hns, zero_add]
    exact clampDuration_eq_self (by unfold minDuration; omega) hsum
  have hcnt : d.TotalCount = (recorded ops).length := by
    rw [hTC, h5]; exact wrapInt_natCast hN
  have hlen : 0 < (elapsed ops).length := List.length_pos.mpr hne
  have hpos : (0 : Int) < ((recorded ops).length : Nat) := by
    rw [← length_elapsed]; exact_mod_cast hlen
  have havg : d.AverageResponseTime = (elapsed ops).sum / ((recorded ops).length : Nat) := by
    rw [hA, if_pos (by rw [hcnt]; exact hpos), htot, hcnt]
    exact Int.tdiv_eq_ediv hs0 (le_of_lt hpos)
  obtain ⟨b1, b2⟩ := sum_bounds (elapsed ops) lo hi hb
  rw [length_elapsed] at b1 b2
  refine ⟨w, d, h1, hd, hcnt, htot, ?_, ?_, ?_, ?_⟩
  · rw [havg]; exact (Int.le_ediv_iff_mul_le hpos).mpr b1
  · rw [havg]
    have : (elapsed ops).sum / ((recorded ops).length : Nat) < hi + 1 := by
      rw [Int.ediv_lt_iff_lt_mul hpos]
      nlinarith
    omega
  · rw [havg, hcnt, htot]; exact Int.ediv_mul_le _ (ne_of_gt hpos)
  · rw [havg, hcnt, htot]; exact Int.lt_ediv_add_one_mul_self _ hpos

/-- A run of C18 with scopes of 100ms, 300ms and 301ms: the average is 233666666ns. -/
theorem C18_average_bounds_witness :
    elapsed [Op.EndWithStatus ⟨63900000000, 100000000, none⟩ ⟨63900000000, 0, none⟩ 200,
             Op.ResetResponseCounts,
             Op.EndWithStatus ⟨63900000001, 0, none⟩ ⟨63900000000, 700000000, none⟩ 500,
             Op.EndWithStatus ⟨63900000002, 301000000, none⟩ ⟨63900000002, 0, none⟩ 200] ≠ [] ∧
    (∀ d ∈ elapsed [Op.EndWithStatus ⟨63900000000, 100000000, none⟩ ⟨63900000000, 0, none⟩ 200,
             Op.ResetResponseCounts,
             Op.EndWithStatus ⟨63900000001, 0, none⟩ ⟨63900000000, 700000000, none⟩ 500,
             Op.EndWithStatus ⟨63900000002, 301000000, none⟩ ⟨63900000002, 0, none⟩ 200],
      (100000000 : Int) ≤ d ∧ d ≤ 301000000) ∧
    ∃ w d, run (New ⟨63900000000, 0, none⟩ 1)
        [Op.EndWithStatus ⟨63900000000, 100000000, none⟩ ⟨63900000000, 0, none⟩ 200,
         Op.ResetResponseCounts,
         Op.EndWithStatus ⟨63900000001, 0, none⟩ ⟨63900000000, 700000000, none⟩ 500,
         Op.EndWithStatus ⟨63900000002, 301000000, none⟩ ⟨63900000002, 0, none⟩ 200] = some w ∧
      Stats.Data w ⟨63900000003, 0, none⟩ = some d ∧
      d.TotalCount = (3 : Nat) ∧
      d.TotalResponseTime = ([100000000, 300000000, 301000000] : List Int).sum ∧
      100000000 ≤ d.AverageResponseTime ∧ d.AverageResponseTime ≤ 301000000 ∧
      d.AverageResponseTime * d.TotalCount ≤ d.TotalResponseTime ∧
      d.TotalResponseTime < (d.AverageResponseTime + 1) * d.TotalCount :=
  ⟨by decide, by decide,
    C18_average_bounds ⟨63900000000, 0, none⟩ 1 _ ⟨63900000003, 0, none⟩ 100000000 301000000
      (by decide) (by decide) (by decide) (by decide) (by decide)⟩

/-- C18 fails as stated: two scopes that start at the zero `time.Time` each measure
`maxDuration`; the total saturates at `maxDuration` and the average is half of it, below
the smallest recorded duration. -/
theorem C18_counterexample :
    ∃ w d, run (New ⟨63900000000, 0, some 0⟩ 7)
        [Op.EndWithStatus ⟨63900000010, 0, some 10000000000⟩ Time.zero 200,
         Op.EndWithStatus ⟨63900000020, 0, some 20000000000⟩ Time.zero 404] = some w ∧
      Stats.Data w ⟨63900000030, 0, some 30000000000⟩ = some d ∧
      elapsed [Op.EndWithStatus ⟨63900000010, 0, some 10000000000⟩ Time.zero 200,
               Op.EndWithStatus ⟨63900000020, 0, some 20000000000⟩ Time.zero 404]
        = [9223372036854775807, 9223372036854775807] ∧
      d.AverageResponseTime = 4611686018427387903 ∧
      d.AverageResponseTime < 9223372036854775807 := by
  refine ⟨_, _, rfl, rfl, ?_, ?_, ?_⟩ <;> decide

/-! ## C17 -/

theorem recorded_perm {ops1 ops2 : List Op} (h : ops1.Perm ops2) :
    (recorded ops1).Perm (recorded ops2) := by
  induction h with
  | nil => exact List.Perm.refl _
  | cons x _ ih => cases x <;> simp only [recorded] <;> first | exact ih.cons _ | exact ih
  | swap x y l =>
    cases x <;> cases y <;> simp only [recorded] <;>
      first | exact List.Perm.swap _ _ _ | exact List.Perm.refl _
  | trans _ _ ih1 ih2 => exact ih1.trans ih2

theorem elapsed_perm {ops1 ops2 : List Op} (h : ops1.Perm ops2) :
    (elapsed ops1).Perm (elapsed ops2) := by
  induction h with
  | nil => exact List.Perm.refl _
  | cons x _ ih => cases x <;> simp only [elapsed] <;> first | exact ih.cons _ | exact ih
  | swap x y l =>
    cases x <;> cases y <;> simp only [elapsed] <;>
      first | exact List.Perm.swap _ _ _ | exact List.Perm.refl _
  | trans _ _ ih1 ih2 => exact ih1.trans ih2

theorem foldl_step_window_index_of_no_reset (ops : List Op) (v : View) (k : String)
    (hnr : Op.ResetResponseCounts ∉ ops) :
    mapIndex (ops.foldl View.step v).ResponseCounts k =
      if (recordedKeys ops).count k = 0 then mapIndex v.ResponseCounts k
      else wrapInt (mapIndex v.ResponseCounts k + ((recordedKeys ops).count k : Nat)) := by
  induction ops generalizing v with
  | nil => simp [recordedKeys, recorded]
  | cons op ops ih =>
    have h2 : Op.ResetResponseCounts ∉ ops := fun hm => hnr (List.mem_cons_of_mem _ hm)
    rw [List.foldl_cons, ih _ h2]
    cases op with
    | EndWithStatus now start status =>
      have hk : recordedKeys (Op.EndWithStatus now start status :: ops) =
          Sprintf_d status :: recordedKeys ops := rfl
      have hs : (View.step v (Op.EndWithStatus now start status)).ResponseCounts =
          mapIncr v.ResponseCounts (Sprintf_d status) := rfl
      rw [hk, hs, mapIndex_mapIncr, List.count_cons]
      by_cases hkey : Sprintf_d status = k
      · subst hkey
        simp only [if_true, beq_self_eq_true]
        by_cases h0 : List.count (Sprintf_d status) (recordedKeys ops) = 0
        · rw [if_pos h0, if_neg (by omega), h0]
          rfl
        · rw [if_neg h0, if_neg (by omega), wrapInt_wrapInt_add]
          congr 1; push_cast; ring
      · have hb : (Sprintf_d status == k) = false := by simpa using hkey
        simp only [hkey, if_false, hb, Bool.false_eq_true, Nat.add_zero]
    | ResetResponseCounts => exact absurd (List.mem_cons_self _ _) hnr
    | Data now => rfl

theorem foldl_step_window_keys_of_no_reset (ops : List Op) (v : View) (k : String)
    (hnr : Op.ResetResponseCounts ∉ ops) :
    k ∈ mapKeys (ops.foldl View.step v).ResponseCounts ↔
      k ∈ mapKeys v.ResponseCounts ∨ k ∈ recordedKeys ops := by
  induction ops generalizing v with
  | nil => simp [recordedKeys, recorded]
  | cons op ops ih =>
    have h2 : Op.ResetResponseCounts ∉ ops := fun hm => hnr (List.mem_cons_of_mem _ hm)
    rw [List.foldl_cons, ih _ h2]
    cases op with
    | EndWithStatus now start status =>
      have hk : recordedKeys (Op.EndWithStatus now start status :: ops) =
          Sprintf_d status :: recordedKeys ops := rfl
      have hs : (View.step v (Op.EndWithStatus now start status)).ResponseCounts =
          mapIncr v.ResponseCounts (Sprintf_d status) := rfl
      rw [hk, hs, mem_mapKeys_mapIncr, List.mem_cons]
      tauto
    | ResetResponseCounts => exact absurd (List.mem_cons_self _ _) hnr
    | Data now => rfl

theorem absSum_cons (d : Int) (ds : List Int) : absSum (d :: ds) = (d.natAbs : Int) + absSum ds := by
  simp [absSum]

theorem absSum_nonneg (ds : List Int) : 0 ≤ absSum ds := by
  unfold absSum
  apply List.sum_nonneg
  intro x hx
  obtain ⟨d, -, rfl⟩ := List.mem_map.mp hx
  exact Int.ofNat_nonneg _

theorem absSum_perm {l1 l2 : List Int} (h : l1.Perm l2) : absSum l1 = absSum l2 :=
  (h.map _).sum_eq

theorem totalsRepresentable_of_bounded (ds : List Int) (acc : Int)
    (h1 : minInt64 * 1000000000 ≤ acc - absSum ds)
    (h2 : acc + absSum ds < (maxInt64 + 1) * 1000000000) : totalsRepresentable acc ds := by
  induction ds generalizing acc with
  | nil => trivial
  | cons d ds ih =>
    rw [absSum_cons] at h1 h2
    have hn := absSum_nonneg ds
    unfold minInt64 at h1; unfold maxInt64 at h2
    refine ⟨?_, ?_, ih (acc + d) ?_ ?_⟩
    · unfold minInt64; omega
    · unfold maxInt64; omega
    · unfold minInt64; omega
    · unfold maxInt64; omega

theorem foldl_Add_mono_none (ds : List Int) (t : Time) (h : t.mono = none) :
    (ds.foldl Time.Add t).mono = none := by
  induction ds generalizing t with
  | nil => exact h
  | cons d ds ih =>
    rw [List.foldl_cons]
    apply ih
    rw [Add_eq_addWall_of_none t d h]
    exact addWall_mono_none t d h

/-- A valid time without monotonic reading is determined by its nanosecond offset. -/
theorem Time_eq_of_ns {t u : Time} (ht : t.Valid) (hu : u.Valid) (hmt : t.mono = none)
    (hmu : u.mono = none) (h : t.ns = u.ns) : t = u := by
  obtain ⟨ts, tn, tm⟩ := t
  obtain ⟨us, un, um⟩ := u
  obtain ⟨-, -, t3, t4, -⟩ := ht
  obtain ⟨-, -, u3, u4, -⟩ := hu
  simp only [Time.ns] at h t3 t4 u3 u4
  simp only at hmt hmu
  subst hmt hmu
  have h1 : ts = us := by omega
  have h2 : tn = un := by omega
  subst h1 h2
  rfl

theorem satTime_Add (T d : Int) (hT : minInt64 * 1000000000 ≤ T) (h0 : 0 ≤ d)
    (h1 : d ≤ maxDuration) : (satTime T).Add d = satTime (T + d) := by
  have hv : (satTime T).Valid := by
    unfold minInt64 at hT
    refine ⟨?_, ?_, ?_, ?_, ?_⟩
    · show minInt64 ≤ min (T / 1000000000) maxInt64
      unfold minInt64 maxInt64; omega
    · show min (T / 1000000000) maxInt64 ≤ maxInt64
      unfold maxInt64; omega
    · show 0 ≤ T % 1000000000
      omega
    · show T % 1000000000 < 1000000000
      omega
    · intro m hm; simp [satTime] at hm
  have hd1 : minDuration ≤ d := by unfold minDuration; omega
  obtain ⟨e1, e2⟩ := Add_wall (satTime T) d hv hd1 h1
  have hm : ((satTime T).Add d).mono = none := by
    rw [Add_eq_addWall_of_none _ _ rfl]; exact addWall_mono_none _ _ rfl
  have hs : (satTime T).sec = min (T / 1000000000) maxInt64 := rfl
  have hn : (satTime T).nsec = T % 1000000000 := rfl
  rw [hs, hn] at e1
  rw [hn] at e2
  generalize (satTime T).Add d = r at e1 e2 hm
  obtain ⟨rs, rn, rm⟩ := r
  simp only at e1 e2 hm
  subst hm
  unfold satTime
  unfold minInt64 at hT; unfold maxDuration at h1
  have g1 : rs = min ((T + d) / 1000000000) maxInt64 := by
    rw [e1]; unfold satSec minInt64 maxInt64
    split_ifs <;> omega
  have g2 : rn = (T + d) % 1000000000 := by rw [e2]; omega
  rw [g1, g2]

theorem foldl_satTime_Add (ds : List Int) (T : Int) (hT : minInt64 * 1000000000 ≤ T)
    (hr : ∀ d ∈ ds, 0 ≤ d ∧ d ≤ maxDuration) :
    ds.foldl Time.Add (satTime T) = satTime (T + ds.sum) := by
  induction ds generalizing T with
  | nil => simp
  | cons d ds ih =>
    obtain ⟨h0, h1⟩ := hr d (List.mem_cons_self _ _)
    rw [List.foldl_cons, satTime_Add T d hT h0 h1,
      ih (T + d) (by omega) (fun x hx => hr x (List.mem_cons_of_mem _ hx)), List.sum_cons]
    congr 1; ring

theorem satTime_ns (t : Time) (hv : t.Valid) (hm : t.mono = none) : satTime t.ns = t := by
  obtain ⟨ts, tn, tm⟩ := t
  obtain ⟨v1, v2, v3, v4, -⟩ := hv
  simp only at hm v1 v2 v3 v4
  subst hm
  unfold satTime Time.ns
  unfold minInt64 at v1; unfold maxInt64 at v2
  have g1 : min ((ts * 1000000000 + tn) / 1000000000) maxInt64 = ts := by
    unfold maxInt64; omega
  have g2 : (ts * 1000000000 + tn) % 1000000000 = tn := by omega
  simp only [g1, g2]

/-- The accumulated time after adding durations to a valid time without monotonic reading
does not depend on their order, when the durations are non-negative or the time is far
enough from the ends of the seconds range. -/
theorem foldl_Add_perm (t : Time) (ds1 ds2 : List Int) (hv : t.Valid) (hm : t.mono = none)
    (hp : ds1.Perm ds2) (hr : ∀ d ∈ ds1, minDuration ≤ d ∧ d ≤ maxDuration)
    (h : (∀ d ∈ ds1, 0 ≤ d) ∨ timeBounded t ds1) :
    ds1.foldl Time.Add t = ds2.foldl Time.Add t := by
  have hr2 : ∀ d ∈ ds2, minDuration ≤ d ∧ d ≤ maxDuration := fun d hd => hr d (hp.mem_iff.mpr hd)
  rcases h with hnn | hb
  · have hT : minInt64 * 1000000000 ≤ t.ns := by
      obtain ⟨v1, -, v3, -, -⟩ := hv
      unfold Time.ns; unfold minInt64 at *; omega
    have e1 := foldl_satTime_Add ds1 t.ns hT (fun d hd => ⟨hnn d hd, (hr d hd).2⟩)
    have e2 := foldl_satTime_Add ds2 t.ns hT
      (fun d hd => ⟨hnn d (hp.mem_iff.mpr hd), (hr2 d hd).2⟩)
    rw [satTime_ns t hv hm] at e1 e2
    rw [e1, e2, hp.sum_eq]
  · obtain ⟨b1, b2⟩ := hb
    have r1 := totalsRepresentable_of_bounded ds1 t.ns b1 b2
    have r2 := totalsRepresentable_of_bounded ds2 t.ns (by rw [← absSum_perm hp]; exact b1)
      (by rw [← absSum_perm hp]; exact b2)
    obtain ⟨n1, v1⟩ := foldl_Add_ns ds1 t hv hr r1
    obtain ⟨n2, v2⟩ := foldl_Add_ns ds2 t hv hr2 r2
    exact Time_eq_of_ns v1 v2 (foldl_Add_mono_none _ _ hm) (foldl_Add_mono_none _ _ hm)
      (by rw [n1, n2, hp.sum_eq])

/-- C17, as amended: in every well-formed state whose accumulated time has no monotonic
clock reading (as in every state reached from a fresh recorder), two runs without a
reset that are permutations of each other, two recorded scopes in either order in
particular, end with the same counts and the same keys in `ResponseCounts` and in
`TotalResponseCounts` and with the same `TotalResponseTime`, provided the elapsed
durations are all non-negative or the accumulated time is far enough from the ends of
the seconds range of a `time.Time` for no addition to saturate. -/
theorem C17_order_independent (w : World) (ops1 ops2 : List Op) (hwf : w.WF)
    (hmono : w.mw.TotalResponseTime.mono = none)
    (hperm : ops1.Perm ops2) (hnr : Op.ResetResponseCounts ∉ ops1)
    (htime : (∀ d ∈ elapsed ops1, 0 ≤ d) ∨ timeBounded w.mw.TotalResponseTime (elapsed ops1)) :
    ∃ w1 w2, run w ops1 = some w1 ∧ run w ops2 = some w2 ∧
      (∀ k, mapIndex (w1.deref w1.mw.ResponseCounts) k =
        mapIndex (w2.deref w2.mw.ResponseCounts) k) ∧
      (∀ k, k ∈ mapKeys (w1.deref w1.mw.ResponseCounts) ↔
        k ∈ mapKeys (w2.deref w2.mw.ResponseCounts)) ∧
      (∀ k, mapIndex (w1.deref w1.mw.TotalResponseCounts) k =
        mapIndex (w2.deref w2.mw.TotalResponseCounts) k) ∧
      (∀ k, k ∈ mapKeys (w1.deref w1.mw.TotalResponseCounts) ↔
        k ∈ mapKeys (w2.deref w2.mw.TotalResponseCounts)) ∧
      w1.mw.TotalResponseTime = w2.mw.TotalResponseTime := by
  obtain ⟨w1, r1, -, v1, -⟩ := run_view ops1 w hwf
  obtain ⟨w2, r2, -, v2, -⟩ := run_view ops2 w hwf
  have hnr2 : Op.ResetResponseCounts ∉ ops2 := fun hm => hnr (hperm.mem_iff.mpr hm)
  have hk : (recordedKeys ops1).Perm (recordedKeys ops2) := (recorded_perm hperm).map Sprintf_d
  have hR : ∀ u : World, u.deref u.mw.ResponseCounts = u.view.ResponseCounts := fun _ => rfl
  have hT : ∀ u : World, u.deref u.mw.TotalResponseCounts = u.view.TotalResponseCounts :=
    fun _ => rfl
  have hC : ∀ u : World, u.mw.TotalResponseTime = u.view.TotalResponseTime := fun _ => rfl
  refine ⟨w1, w2, r1, r2, ?_, ?_, ?_, ?_, ?_⟩
  · intro k
    rw [hR, hR, v1, v2, foldl_step_window_index_of_no_reset ops1 _ k hnr,
      foldl_step_window_index_of_no_reset ops2 _ k hnr2, hk.count_eq k]
  · intro k
    rw [hR, hR, v1, v2, foldl_step_window_keys_of_no_reset ops1 _ k hnr,
      foldl_step_window_keys_of_no_reset ops2 _ k hnr2, hk.mem_iff]
  · intro k
    rw [hT, hT, v1, v2, foldl_step_total_index, foldl_step_total_index, hk.count_eq k]
  · intro k
    rw [hT, hT, v1, v2, foldl_step_total_keys, foldl_step_total_keys, hk.mem_iff]
  · rw [hC, hC, v1, v2, foldl_step_time, foldl_step_time]
    exact foldl_Add_perm _ _ _ hwf.2.2.2 hmono (elapsed_perm hperm) (elapsed_range ops1) htime

/-- Two scopes, a 200 of 250ms and a 404 of 2s, recorded in either order. -/
theorem C17_order_independent_witness :
    (World.mk [[("404", 1)], [("200", 4), ("404", 2)]]
      ⟨⟨63900000000, 0, none⟩, 1, 0, 1, ⟨1, 900000000, none⟩⟩).WF ∧
    [Op.EndWithStatus ⟨63900000005, 250000000, none⟩ ⟨63900000005, 0, none⟩ 200,
     Op.EndWithStatus ⟨63900000009, 0, none⟩ ⟨63900000007, 0, none⟩ 404].Perm
    [Op.EndWithStatus ⟨63900000009, 0, none⟩ ⟨63900000007, 0, none⟩ 404,
     Op.EndWithStatus ⟨63900000005, 250000000, none⟩ ⟨63900000005, 0, none⟩ 200] ∧
    (∀ d ∈ elapsed [Op.EndWithStatus ⟨63900000005, 250000000, none⟩ ⟨63900000005, 0, none⟩ 200,
        Op.EndWithStatus ⟨63900000009, 0, none⟩ ⟨63900000007, 0, none⟩ 404], (0 : Int) ≤ d) ∧
    ∃ w1 w2, run (World.mk [[("404", 1)], [("200", 4), ("404", 2)]]
        ⟨⟨63900000000, 0, none⟩, 1, 0, 1, ⟨1, 900000000, none⟩⟩)
        [Op.EndWithStatus ⟨63900000005, 250000000, none⟩ ⟨63900000005, 0, none⟩ 200,
         Op.EndWithStatus ⟨63900000009, 0, none⟩ ⟨63900000007, 0, none⟩ 404] = some w1 ∧
      run (World.mk [[("404", 1)], [("200", 4), ("404", 2)]]
        ⟨⟨63900000000, 0, none⟩, 1, 0, 1, ⟨1, 900000000, none⟩⟩)
        [Op.EndWithStatus ⟨63900000009, 0, none⟩ ⟨63900000007, 0, none⟩ 404,
         Op.EndWithStatus ⟨63900000005, 250000000, none⟩ ⟨63900000005, 0, none⟩ 200] = some w2 ∧
      (∀ k, mapIndex (w1.deref w1.mw.ResponseCounts) k =
        mapIndex (w2.deref w2.mw.ResponseCounts) k) ∧
      (∀ k, k ∈ mapKeys (w1.deref w1.mw.ResponseCounts) ↔
        k ∈ mapKeys (w2.deref w2.mw.ResponseCounts)) ∧
      (∀ k, mapIndex (w1.deref w1.mw.TotalResponseCounts) k =
        mapIndex (w2.deref w2.mw.TotalResponseCounts) k) ∧
      (∀ k, k ∈ mapKeys (w1.deref w1.mw.TotalResponseCounts) ↔
        k ∈ mapKeys (w2.deref w2.mw.TotalResponseCounts)) ∧
      w1.mw.TotalResponseTime = w2.mw.TotalResponseTime :=
  ⟨by decide, List.Perm.swap _ _ _, by decide,
    C17_order_independent (World.mk [[("404", 1)], [("200", 4), ("404", 2)]]
      ⟨⟨63900000000, 0, none⟩, 1, 0, 1, ⟨1, 900000000, none⟩⟩) _ _
      (by decide) rfl (List.Perm.swap _ _ _) (by decide) (Or.inl (by decide))⟩

/-- C17 fails as stated: in a state whose accumulated time is one second below the largest
`int64` of seconds, a scope of `+5s` followed by a scope of `-5s` saturates and then
steps back, while the opposite order does not saturate; the two orders end with
different `TotalResponseTime`. -/
theorem C17_counterexample :
    ∃ w1 w2, run (World.mk [[], []]
        ⟨⟨63900000000, 0, none⟩, 1, 0, 1, ⟨9223372036854775806, 0, none⟩⟩)
        [Op.EndWithStatus ⟨63900000005, 0, none⟩ ⟨63900000000, 0, none⟩ 200,
         Op.EndWithStatus ⟨63900000000, 0, none⟩ ⟨63900000005, 0, none⟩ 404] = some w1 ∧
      run (World.mk [[], []]
        ⟨⟨63900000000, 0, none⟩, 1, 0, 1, ⟨9223372036854775806, 0, none⟩⟩)
        [Op.EndWithStatus ⟨63900000000, 0, none⟩ ⟨63900000005, 0, none⟩ 404,
         Op.EndWithStatus ⟨63900000005, 0, none⟩ ⟨63900000000, 0, none⟩ 200] = some w2 ∧
      w1.mw.TotalResponseTime = ⟨9223372036854775802, 0, none⟩ ∧
      w2.mw.TotalResponseTime = ⟨9223372036854775806, 0, none⟩ ∧
      w1.mw.TotalResponseTime ≠ w2.mw.TotalResponseTime := by
  refine ⟨_, _, rfl, rfl, ?_, ?_, ?_⟩ <;> decide

end stats
